import Mathlib

set_option autoImplicit false

/-!
Verification of the bitacora ingestion / notarization service against its
natural-language specification.  The definitions below are a shallow
embedding of the Rust sources: byte strings are `List Nat` (each entry a
byte value), machine integers are `Nat` with explicit reductions modulo
`2 ^ 64` or `2 ^ 32` where the Rust code can overflow, fallible code
returns `Except` or `Option` (with `Option.none` marking a Rust panic),
and stateful storage code is explicit state passing.
-/

namespace Bitacora

/-! ## Byte-level utilities -/

/-- Big-endian byte encoding of width `k` (the Rust `to_be_bytes` family). -/
def beBytes (k n : Nat) : List Nat :=
  (List.range k).map (fun i => (n >>> (8 * (k - 1 - i))) % 256)

/-- `u64::to_be_bytes`. -/
def be64 (n : Nat) : List Nat := beBytes 8 n

/-- `u32::to_be_bytes`. -/
def be32 (n : Nat) : List Nat := beBytes 4 n

/-- Little-endian interpretation of (up to) 8 bytes as one 64-bit lane. -/
def lanesOfBytesLE (bs : List Nat) : Nat :=
  bs.foldr (fun b acc => b + 256 * acc) 0

/-- Little-endian byte expansion of a 64-bit lane. -/
def laneToBytesLE (n : Nat) : List Nat :=
  (List.range 8).map (fun i => (n >>> (8 * i)) % 256)

/-- UTF-8 encoding of one character (the byte view Rust takes of a `str`). -/
def charUtf8 (c : Char) : List Nat :=
  let n := c.toNat
  if n < 0x80 then [n]
  else if n < 0x800 then
    [0xC0 ||| (n >>> 6), 0x80 ||| (n &&& 0x3F)]
  else if n < 0x10000 then
    [0xE0 ||| (n >>> 12), 0x80 ||| ((n >>> 6) &&& 0x3F), 0x80 ||| (n &&& 0x3F)]
  else
    [0xF0 ||| (n >>> 18), 0x80 ||| ((n >>> 12) &&& 0x3F),
     0x80 ||| ((n >>> 6) &&& 0x3F), 0x80 ||| (n &&& 0x3F)]

/-- UTF-8 bytes of a string, as Rust `str::as_bytes`. -/
def utf8Encode (s : String) : List Nat :=
  s.data.foldr (fun c acc => charUtf8 c ++ acc) []

/-- Split a list into chunks of size `k` (`k > 0`); the first argument is
fuel, always called with at least the list length so it never runs out. -/
def chunksAux {α : Type} (k : Nat) : Nat → List α → List (List α)
  | 0, _ => []
  | n + 1, l =>
    if l.length = 0 ∨ k = 0 then [] else
      l.take k :: chunksAux k n (l.drop k)

/-- Split a list into chunks of size `k` (`k > 0`). -/
def chunks {α : Type} (k : Nat) (l : List α) : List (List α) :=
  chunksAux k l.length l

/-! ## Keccak-256 (the `ethers::utils::keccak256` hasher)

The state is a flat list of 25 lanes of 64 bits, lane `(x, y)` stored at
index `x + 5 * y`.  Padding is the original Keccak `pad10*1` with domain
byte `0x01` (not the NIST SHA-3 `0x06`), matching `ethers`. -/

def u64Mask : Nat := 0xFFFFFFFFFFFFFFFF

def rotl64 (x n : Nat) : Nat :=
  (((x <<< (n % 64)) ||| (x >>> (64 - n % 64)))) &&& u64Mask

def keccakRC : List Nat := [
  0x0000000000000001, 0x0000000000008082, 0x800000000000808a, 0x8000000080008000,
  0x000000000000808b, 0x0000000080000001, 0x8000000080008081, 0x8000000000008009,
  0x000000000000008a, 0x0000000000000088, 0x0000000080008009, 0x000000008000000a,
  0x000000008000808b, 0x800000000000008b, 0x8000000000008089, 0x8000000000008003,
  0x8000000000008002, 0x8000000000000080, 0x000000000000800a, 0x800000008000000a,
  0x8000000080008081, 0x8000000000008080, 0x0000000080000001, 0x8000000080008008]

/-- One Keccak-f round on the 25 matched lanes (theta, rho-pi, chi and iota
fused into direct 64-bit lane arithmetic). -/
def keccakRound (a : List Nat) (rc : Nat) : List Nat :=
  match a with
  | [a0, a1, a2, a3, a4, a5, a6, a7, a8, a9, a10, a11, a12, a13, a14, a15, a16, a17, a18, a19, a20, a21, a22, a23, a24] =>
    let c0 := a0 ^^^ a5 ^^^ a10 ^^^ a15 ^^^ a20
    let c1 := a1 ^^^ a6 ^^^ a11 ^^^ a16 ^^^ a21
    let c2 := a2 ^^^ a7 ^^^ a12 ^^^ a17 ^^^ a22
    let c3 := a3 ^^^ a8 ^^^ a13 ^^^ a18 ^^^ a23
    let c4 := a4 ^^^ a9 ^^^ a14 ^^^ a19 ^^^ a24
    let d0 := c4 ^^^ rotl64 c1 1
    let d1 := c0 ^^^ rotl64 c2 1
    let d2 := c1 ^^^ rotl64 c3 1
    let d3 := c2 ^^^ rotl64 c4 1
    let d4 := c3 ^^^ rotl64 c0 1
    let b0 := (a0 ^^^ d0)
    let b1 := rotl64 (a6 ^^^ d1) 44
    let b2 := rotl64 (a12 ^^^ d2) 43
    let b3 := rotl64 (a18 ^^^ d3) 21
    let b4 := rotl64 (a24 ^^^ d4) 14
    let b5 := rotl64 (a3 ^^^ d3) 28
    let b6 := rotl64 (a9 ^^^ d4) 20
    let b7 := rotl64 (a10 ^^^ d0) 3
    let b8 := rotl64 (a16 ^^^ d1) 45
    let b9 := rotl64 (a22 ^^^ d2) 61
    let b10 := rotl64 (a1 ^^^ d1) 1
    let b11 := rotl64 (a7 ^^^ d2) 6
    let b12 := rotl64 (a13 ^^^ d3) 25
    let b13 := rotl64 (a19 ^^^ d4) 8
    let b14 := rotl64 (a20 ^^^ d0) 18
    let b15 := rotl64 (a4 ^^^ d4) 27
    let b16 := rotl64 (a5 ^^^ d0) 36
    let b17 := rotl64 (a11 ^^^ d1) 10
    let b18 := rotl64 (a17 ^^^ d2) 15
    let b19 := rotl64 (a23 ^^^ d3) 56
    let b20 := rotl64 (a2 ^^^ d2) 62
    let b21 := rotl64 (a8 ^^^ d3) 55
    let b22 := rotl64 (a14 ^^^ d4) 39
    let b23 := rotl64 (a15 ^^^ d0) 41
    let b24 := rotl64 (a21 ^^^ d1) 2
    [(b0 ^^^ ((b1 ^^^ u64Mask) &&& b2)) ^^^ rc,
     b1 ^^^ ((b2 ^^^ u64Mask) &&& b3),
     b2 ^^^ ((b3 ^^^ u64Mask) &&& b4),
     b3 ^^^ ((b4 ^^^ u64Mask) &&& b0),
     b4 ^^^ ((b0 ^^^ u64Mask) &&& b1),
     b5 ^^^ ((b6 ^^^ u64Mask) &&& b7),
     b6 ^^^ ((b7 ^^^ u64Mask) &&& b8),
     b7 ^^^ ((b8 ^^^ u64Mask) &&& b9),
     b8 ^^^ ((b9 ^^^ u64Mask) &&& b5),
     b9 ^^^ ((b5 ^^^ u64Mask) &&& b6),
     b10 ^^^ ((b11 ^^^ u64Mask) &&& b12),
     b11 ^^^ ((b12 ^^^ u64Mask) &&& b13),
     b12 ^^^ ((b13 ^^^ u64Mask) &&& b14),
     b13 ^^^ ((b14 ^^^ u64Mask) &&& b10),
     b14 ^^^ ((b10 ^^^ u64Mask) &&& b11),
     b15 ^^^ ((b16 ^^^ u64Mask) &&& b17),
     b16 ^^^ ((b17 ^^^ u64Mask) &&& b18),
     b17 ^^^ ((b18 ^^^ u64Mask) &&& b19),
     b18 ^^^ ((b19 ^^^ u64Mask) &&& b15),
     b19 ^^^ ((b15 ^^^ u64Mask) &&& b16),
     b20 ^^^ ((b21 ^^^ u64Mask) &&& b22),
     b21 ^^^ ((b22 ^^^ u64Mask) &&& b23),
     b22 ^^^ ((b23 ^^^ u64Mask) &&& b24),
     b23 ^^^ ((b24 ^^^ u64Mask) &&& b20),
     b24 ^^^ ((b20 ^^^ u64Mask) &&& b21)]
  | _ => a
def keccakF (a : List Nat) : List Nat :=
  keccakRC.foldl keccakRound a

/-- Keccak `pad10*1` with domain byte `0x01` to a multiple of the 136-byte rate. -/
def keccakPad (msg : List Nat) : List Nat :=
  let r := msg.length % 136
  if r = 135 then msg ++ [0x81]
  else msg ++ 0x01 :: List.replicate (134 - r) 0 ++ [0x80]

def keccakAbsorbBlock (a blk : List Nat) : List Nat :=
  let lanes := (chunks 8 blk).map lanesOfBytesLE
  keccakF ((List.range 25).map (fun j => a.getD j 0 ^^^ lanes.getD j 0))

/-- `ethers::utils::keccak256`, as a list of 32 byte values. -/
def keccak256 (msg : List Nat) : List Nat :=
  let final := (chunks 136 (keccakPad msg)).foldl keccakAbsorbBlock (List.replicate 25 0)
  laneToBytesLE (final.getD 0 0) ++ laneToBytesLE (final.getD 1 0) ++
    laneToBytesLE (final.getD 2 0) ++ laneToBytesLE (final.getD 3 0)

/-! ## SHA-256 (the `sha2::Sha256` hasher) -/

def u32Mask : Nat := 0xFFFFFFFF

def rotr32 (x n : Nat) : Nat :=
  ((x >>> n) ||| (x <<< (32 - n))) &&& u32Mask

def sha256K : List Nat := [
  1116352408, 1899447441, 3049323471, 3921009573, 961987163, 1508970993,
  2453635748, 2870763221, 3624381080, 310598401, 607225278, 1426881987,
  1925078388, 2162078206, 2614888103, 3248222580, 3835390401, 4022224774,
  264347078, 604807628, 770255983, 1249150122, 1555081692, 1996064986,
  2554220882, 2821834349, 2952996808, 3210313671, 3336571891, 3584528711,
  113926993, 338241895, 666307205, 773529912, 1294757372, 1396182291,
  1695183700, 1986661051, 2177026350, 2456956037, 2730485921, 2820302411,
  3259730800, 3345764771, 3516065817, 3600352804, 4094571909, 275423344,
  430227734, 506948616, 659060556, 883997877, 958139571, 1322822218,
  1537002063, 1747873779, 1955562222, 2024104815, 2227730452, 2361852424,
  2428436474, 2756734187, 3204031479, 3329325298]

def sha256H0 : List Nat := [
  1779033703, 3144134277, 1013904242, 2773480762,
  1359893119, 2600822924, 528734635, 1541459225]

/-- SHA-256 padding: `0x80`, zeros, then the 64-bit big-endian bit length. -/
def sha256Pad (msg : List Nat) : List Nat :=
  let zeros := (119 - msg.length % 64) % 64
  msg ++ 0x80 :: List.replicate zeros 0 ++ be64 (8 * msg.length)

/-- Message schedule extension towards 64 words; the first argument is fuel,
called with 64 which always suffices. -/
def sha256ExtendAux : Nat → List Nat → List Nat
  | 0, w => w
  | n + 1, w =>
    if 64 ≤ w.length then w else
      let w15 := w.getD (w.length - 15) 0
      let w2 := w.getD (w.length - 2) 0
      let s0 := rotr32 w15 7 ^^^ rotr32 w15 18 ^^^ (w15 >>> 3)
      let s1 := rotr32 w2 17 ^^^ rotr32 w2 19 ^^^ (w2 >>> 10)
      sha256ExtendAux n
        (w ++ [(w.getD (w.length - 16) 0 + s0 + w.getD (w.length - 7) 0 + s1) &&& u32Mask])

/-- Message schedule extension from the 16 block words to 64 words. -/
def sha256Extend (w : List Nat) : List Nat :=
  sha256ExtendAux 64 w

def sha256Round (st : List Nat) (kw : Nat × Nat) : List Nat :=
  match st with
  | [a, b, c, d, e, f, g, h] =>
    let s1 := rotr32 e 6 ^^^ rotr32 e 11 ^^^ rotr32 e 25
    let ch := (e &&& f) ^^^ ((e ^^^ u32Mask) &&& g)
    let t1 := (h + s1 + ch + kw.1 + kw.2) &&& u32Mask
    let s0 := rotr32 a 2 ^^^ rotr32 a 13 ^^^ rotr32 a 22
    let maj := (a &&& b) ^^^ (a &&& c) ^^^ (b &&& c)
    let t2 := (s0 + maj) &&& u32Mask
    [(t1 + t2) &&& u32Mask, a, b, c, (d + t1) &&& u32Mask, e, f, g]
  | _ => st

def sha256Block (hs blk : List Nat) : List Nat :=
  let w0 := (chunks 4 blk).map (fun c => c.foldl (fun acc b => acc * 256 + b) 0)
  let w := sha256Extend w0
  let st := (sha256K.zip w).foldl sha256Round hs
  (List.range 8).map (fun i => (hs.getD i 0 + st.getD i 0) &&& u32Mask)

/-- `sha2::Sha256` digest of a byte string, as a list of 32 byte values. -/
def sha256 (msg : List Nat) : List Nat :=
  let hs := (chunks 64 (sha256Pad msg)).foldl sha256Block sha256H0
  hs.foldr (fun h acc => be32 h ++ acc) []

/-! ## Base58 and hex codecs (the `bs58` / `hex` crates) -/

def base58Alphabet : List Char :=
  ("123456789ABCDEFGHJKLMNPQRSTUVWXYZabcdefghijkmnopqrstuvwxyz").data

/-- Base-58 digits (most significant first); the first argument is fuel,
always called with the number itself which bounds the digit count. -/
def b58DigitsAux : Nat → Nat → List Nat
  | 0, _ => []
  | f + 1, n => if n = 0 then [] else b58DigitsAux f (n / 58) ++ [n % 58]

def b58Digits (n : Nat) : List Nat :=
  b58DigitsAux n n

/-- `bs58::encode` of a byte string: one `'1'` per leading zero byte, then the
base-58 digits of the big-endian value. -/
def base58Encode (bytes : List Nat) : String :=
  let leading := (bytes.takeWhile (fun b => b == 0)).length
  let n := bytes.foldl (fun acc b => acc * 256 + b) 0
  String.mk (List.replicate leading '1' ++ (b58Digits n).map (fun d => base58Alphabet.getD d '1'))

def hexDigit (n : Nat) : Char :=
  (("0123456789abcdef").data).getD n '0'

/-- `hex::encode` of a byte string (lowercase, no prefix). -/
def hexEncode (bytes : List Nat) : String :=
  String.mk (bytes.foldr (fun b acc => hexDigit (b / 16) :: hexDigit (b % 16) :: acc) [])

/-- Parse a decimal string, as Rust `str::parse::<u32>` (`none` = parse error). -/
def parseNat (s : String) : Option Nat :=
  if s.data.isEmpty then none
  else if s.data.all (fun c => c.isDigit) then
    some (s.data.foldl (fun acc c => acc * 10 + (c.toNat - 48)) 0)
  else none

/-! ## Merkle engine (`src/common/merkle.rs`)

`MerkleTreeAppendOnly<H>` with nodes as raw byte strings.  The definitions
are parameterized by the hash function `h` standing for `H::hash`; the
production instantiation `MerkleTreeOZ = MerkleTreeAppendOnly<Keccak256>`
fixes `h := keccak256`.  Rust `Vec` indexing panics when out of bounds; in
the ranges exercised here every index is in bounds and indexing is
embedded as `List.getD` with an irrelevant default. -/

/-- Lexicographic `<` on byte strings: `PartialOrd` of `[u8; 32]` / slices. -/
def bytesLt : List Nat → List Nat → Bool
  | _, [] => false
  | [], _ :: _ => true
  | a :: as, b :: bs => a < b || (a == b && bytesLt as bs)

structure MerkleTreeAppendOnly where
  nodes : List (List Nat)
  leaves : List (List Nat)
deriving DecidableEq, Repr

namespace MerkleTreeAppendOnly

def new : MerkleTreeAppendOnly := ⟨[], []⟩

/-- `MerkleTreeAppendOnly::append`: push the element hash onto `leaves`. -/
def append (h : List Nat → List Nat) (t : MerkleTreeAppendOnly) (element : List Nat) :
    MerkleTreeAppendOnly :=
  { t with leaves := t.leaves ++ [h element] }

def is_empty (t : MerkleTreeAppendOnly) : Bool :=
  t.nodes.isEmpty && t.leaves.isEmpty

def is_root_valid (t : MerkleTreeAppendOnly) : Bool :=
  t.leaves.length == 0 && t.nodes.length > 0

/-- `pairwise_hash`: hash of the two nodes concatenated smaller-first. -/
def pairwise_hash (h : List Nat → List Nat) (v1 v2 : List Nat) : List Nat :=
  if bytesLt v1 v2 then h (v1 ++ v2) else h (v2 ++ v1)

/-- The level loop of `compute`.  `fuel` is one plus the current level width,
which strictly bounds the remaining iterations (each level halves). -/
def computeLoop (h : List Nat → List Nat) :
    Nat → List (List Nat) → Nat → Option Nat → List (List Nat)
  | 0, nodes, _, _ => nodes
  | fuel + 1, nodes, start, oddIdx =>
    let endIdx := nodes.length
    let pairs := (List.range ((endIdx - start) / 2)).map (fun i =>
      pairwise_hash h (nodes.getD (start + 2 * i) []) (nodes.getD (start + 2 * i + 1) []))
    let nodes1 := nodes ++ pairs
    let oddIdx1 := if oddIdx.isNone && endIdx % 2 == 1 then some (endIdx - 1) else oddIdx
    if endIdx - start ≤ 2 then
      match oddIdx1 with
      | some j => nodes1 ++ [pairwise_hash h (nodes1.getD (nodes1.length - 1) []) (nodes1.getD j [])]
      | none => nodes1
    else
      computeLoop h fuel nodes1 endIdx oddIdx1

/-- `MerkleTreeAppendOnly::compute`: truncate the stale interior nodes,
absorb the pending `leaves`, then rebuild the interior levels. -/
def compute (h : List Nat → List Nat) (t : MerkleTreeAppendOnly) : MerkleTreeAppendOnly :=
  let total_leaves := (t.nodes.length + 1) / 2
  let nodes0 := t.nodes.take total_leaves ++ t.leaves
  if nodes0.length < 2 then ⟨nodes0, []⟩
  else ⟨computeLoop h (nodes0.length + 1) nodes0 0 none, []⟩

/-- `MerkleTree::root`: recompute lazily if invalid, then the last node. -/
def root (h : List Nat → List Nat) (t : MerkleTreeAppendOnly) :
    Option (List Nat) × MerkleTreeAppendOnly :=
  let t1 := if ¬ is_root_valid t then compute h t else t
  (t1.nodes.getLast?, t1)

/-- `iter().position(...)` on the node list. -/
def position (p : List Nat → Bool) : List (List Nat) → Option Nat
  | [] => none
  | a :: as => if p a then some 0 else (position p as).map (fun n => n + 1)

/-- Rust `usize::is_power_of_two`. -/
def isPow2 (n : Nat) : Bool := n != 0 && (n &&& (n - 1)) == 0

/-- Rust `usize::ilog2` (floor of the base-2 logarithm); the first argument
is fuel, always called with `n` itself which bounds the halving steps. -/
def ilog2Aux : Nat → Nat → Nat
  | 0, _ => 0
  | f + 1, n => if n ≤ 1 then 0 else ilog2Aux f (n / 2) + 1

def ilog2 (n : Nat) : Nat := ilog2Aux n n

/-- The per-level loop of `proof`, iterated exactly `tree_depth` times. -/
def proofGo (nodes : List (List Nat)) :
    Nat → Nat → Nat → Nat → Nat → Nat → List (List Nat) → List (List Nat)
  | 0, _, _, _, _, _, acc => acc
  | depth + 1, start, endIdx, itemCursor, oddLevelsCount, oddElementIndex, acc =>
    let width := endIdx - start
    let oddLevelsCount1 := if width % 2 == 1 then oddLevelsCount + 1 else oddLevelsCount
    let oddElementIndex1 :=
      if width % 2 == 1 && ¬ (oddLevelsCount1 % 2 == 0) then endIdx - 1 else oddElementIndex
    let oddElementRebalance := if width % 2 == 1 && oddLevelsCount1 % 2 == 0 then 1 else 0
    let itemIndex := start + itemCursor
    let acc1 :=
      if itemCursor % 2 == 1 then acc ++ [nodes.getD (itemIndex - 1) []]
      else if itemIndex < endIdx - 1 then acc ++ [nodes.getD (itemIndex + 1) []]
      else if oddLevelsCount1 % 2 == 0 then acc ++ [nodes.getD oddElementIndex1 []]
      else acc
    proofGo nodes depth endIdx (endIdx + width / 2 + oddElementRebalance)
      (itemCursor / 2) oddLevelsCount1 oddElementIndex1 acc1

/-- `MerkleTree::proof`: locate the leaf hash, then collect the sibling
hashes level by level, rebalancing odd levels every other occurrence. -/
def proof (h : List Nat → List Nat) (t : MerkleTreeAppendOnly) (leaf : List Nat) :
    Option (List (List Nat)) × MerkleTreeAppendOnly :=
  if is_empty t then (none, t) else
  let t1 := if ¬ is_root_valid t then compute h t else t
  let leafHash := h leaf
  match position (fun x => x == leafHash) t1.nodes with
  | none => (none, t1)
  | some itemCursor =>
    let nLeaves := (t1.nodes.length + 1) / 2
    let treeDepth := if isPow2 nLeaves then ilog2 nLeaves else ilog2 nLeaves + 1
    (some (proofGo t1.nodes treeDepth 0 nLeaves itemCursor 0 0 []), t1)

/-- `MerkleTreeAppendOnly::verify_from_root`: fold the proof through the
commutative pairing and compare with the root. -/
def verify_from_root (h : List Nat → List Nat) (rootHash leaf : List Nat)
    (pf : List (List Nat)) : Bool :=
  let leafHash := h leaf
  if pf.isEmpty then rootHash == leafHash
  else pf.foldl (fun acc c => pairwise_hash h acc c) leafHash == rootHash

end MerkleTreeAppendOnly

/-- Append a list of elements in order to a fresh tree. -/
def treeOfList (h : List Nat → List Nat) (elements : List (List Nat)) : MerkleTreeAppendOnly :=
  elements.foldl (MerkleTreeAppendOnly.append h) MerkleTreeAppendOnly.new

/-- The `"a"` .. `"h"` test elements of the repository test-suite. -/
def strBytes (s : String) : List Nat := utf8Encode s

/-! ## Entities (`src/state/entities.rs`) and Web3 data (`src/web3/traits.rs`)

IEEE-754 `f64` coordinates only ever reach byte form through `to_be_bytes`,
so the two coordinates are modelled by their 64-bit bit patterns; no
floating-point arithmetic occurs anywhere in the embedded code. -/

inductive Entity
  | Dataset
  | Device
  | FlightData
deriving DecidableEq, Repr

inductive StorageError
  | FailedRelatingData (a b : String)
  | MalformedData (field : String)
  | InconsistentRelatedData (a b : String)
  | NotFound (e : Entity)
  | AlreadyExists
  | NoOp
  | Generic
deriving DecidableEq, Repr

inductive IdError
  | Length (got expected : Nat)
  | Format (got expected : String)
  | Unknown
deriving DecidableEq, Repr

inductive TxStatus
  | Submitted
  | Included
  | Confirmed
deriving DecidableEq, Repr

structure Tx where
  hash : List Nat
  status : TxStatus
deriving DecidableEq, Repr

inductive Blockchain
  | EVM (chain : String)
deriving DecidableEq, Repr

def Blockchain.ethereum : Blockchain := .EVM ("Ethereum")

def Blockchain.devnet : Blockchain := .EVM ("Devnet")

/-- `MerkleTreeReceipt<MT>` instantiated at `MerkleTreeOZ`. -/
inductive MerkleTreeReceipt
  | Root (node : List Nat)
  | Proof (pf : List (List Nat))
  | Tree (t : MerkleTreeAppendOnly)
deriving DecidableEq, Repr

structure Web3Info where
  blockchain : Blockchain
  tx : Tx
  merkle_receipt : Option MerkleTreeReceipt
deriving DecidableEq, Repr

structure LocalizationPoint where
  longitude : Nat
  latitude : Nat
deriving DecidableEq, Repr

structure Device where
  id : String
  pk : List Nat
  web3 : Option Web3Info
deriving DecidableEq, Repr

/-- `Device::from(PublicKey)`: the id is base58 of `SHA-256(public_key)`. -/
def Device.fromPk (pk : List Nat) : Device :=
  { id := base58Encode (sha256 pk), pk := pk, web3 := none }

def FLIGHT_DATA_ID_PREFIX_BYTE : Nat := 1

/-- `FlightDataId::new(timestamp, device_id)`:
`SHA-256(0x01 || timestamp.to_be_bytes() || device_id)`. -/
def FlightDataId.new (timestamp : Nat) (device_id : String) : List Nat :=
  sha256 ([FLIGHT_DATA_ID_PREFIX_BYTE] ++ be64 timestamp ++ utf8Encode device_id)

structure FlightData where
  id : List Nat
  signature : String
  timestamp : Nat
  localization : LocalizationPoint
  payload : List Nat
deriving DecidableEq, Repr

/-- `FlightData::to_bytes`: id bytes, then big-endian timestamp, latitude
and longitude, then the raw payload. -/
def FlightData.to_bytes (fd : FlightData) : List Nat :=
  fd.id ++ be64 fd.timestamp ++ be64 fd.localization.latitude ++
    be64 fd.localization.longitude ++ fd.payload

structure Dataset where
  id : String
  limit : Nat
  count : Nat
  web3 : Option Web3Info
deriving DecidableEq, Repr

/-- `TryFrom<POSTFlightDataRequest> for FlightData`
(`src/handlers/post_flight_data.rs`): the record id is
`FlightDataId::new(timestamp, device_id)`; localization, payload and
signature are carried over without entering the id. -/
def flight_data_from_request (device_id : String) (timestamp : Nat)
    (localization : LocalizationPoint) (payload : List Nat) (signature : String) : FlightData :=
  { id := FlightDataId.new timestamp device_id, signature := signature,
    timestamp := timestamp, localization := localization, payload := payload }

/-- `Dataset::dataset_id`: base58 of
`SHA-256(device_id || device_dataset_counter.to_be_bytes())` with a 4-byte
big-endian counter. -/
def Dataset.dataset_id (device_id : String) (device_dataset_counter : Nat) : String :=
  base58Encode (sha256 (utf8Encode device_id ++ be32 device_dataset_counter))

/-- `Dataset::new`. -/
def Dataset.new (device_id : String) (device_dataset_counter limit : Nat) : Dataset :=
  { id := Dataset.dataset_id device_id device_dataset_counter,
    limit := limit, count := 0, web3 := none }

/-! ## Association-list maps standing for `HashMap`

`HashMap::insert` replaces the value of an existing key in place and
appends fresh keys; lookups are by key equality. -/

def alookup {κ ν : Type} [DecidableEq κ] (k : κ) : List (κ × ν) → Option ν
  | [] => none
  | (k1, v1) :: rest => if k1 = k then some v1 else alookup k rest

/-- `HashMap::insert`: replace in place when present, append when fresh
(keys are unique by construction, so replacing the first match is the map
update). -/
def ainsert {κ ν : Type} [DecidableEq κ] (k : κ) (v : ν) : List (κ × ν) → List (κ × ν)
  | [] => [(k, v)]
  | (k1, v1) :: rest => if k1 = k then (k, v) :: rest else (k1, v1) :: ainsert k v rest

/-- `HashMap::entry(k).and_modify(f)`: modify in place only when present. -/
def amodify {κ ν : Type} [DecidableEq κ] (k : κ) (f : ν → ν) (l : List (κ × ν)) : List (κ × ν) :=
  l.map (fun p => if p.1 = k then (p.1, f p.2) else p)

/-! ## In-memory storage backend (`src/storage/in_memory.rs`)

`InMemoryStorage` holds seven maps.  `rand::random::<u64>()` values are
passed in explicitly (two per potential dataset creation).  Functions that
can hit a Rust `unwrap` panic return `Option`, with `none` for the panic. -/

structure InMemoryStorage where
  devices : List (String × Device)
  fligth_data : List (List Nat × FlightData)
  datasets : List (String × Dataset)
  datasets_flight_datas : List (String × List (List Nat))
  flight_data_dataset : List (List Nat × String)
  devices_datasets : List (String × List String)
  dataset_limits : List (String × Nat)
deriving DecidableEq, Repr

namespace InMemoryStorage

def empty : InMemoryStorage := ⟨[], [], [], [], [], [], []⟩

/-- `InMemoryStorage::new_dataset_id`: base58 of the SHA-256 of two random
big-endian `u64` values (not the `Dataset::dataset_id` hash chain). -/
def new_dataset_id (r1 r2 : Nat) : String :=
  base58Encode (sha256 (be64 r1 ++ be64 r2))

/-- `InMemoryStorage::increment_dataset_count`. -/
def increment_dataset_count (s : InMemoryStorage) (ds_id : String) :
    Except StorageError (Nat × InMemoryStorage) :=
  match alookup ds_id s.datasets with
  | none => .error (.NotFound .Dataset)
  | some ds =>
    if ds.limit ≤ ds.count then .error .Generic
    else .ok (ds.count + 1,
      { s with datasets := ainsert ds_id { ds with count := ds.count + 1 } s.datasets })

/-- `InMemoryStorage::new_device` (`DeviceStorage` impl): inserts the
device, an empty dataset list and the limit — it allocates no dataset. -/
def new_device (s : InMemoryStorage) (device : Device) (dataset_limit : Nat) :
    Except StorageError Unit × InMemoryStorage :=
  if (alookup device.id s.devices).isSome then (.error .AlreadyExists, s)
  else (.ok (),
    { s with devices := ainsert device.id device s.devices,
             devices_datasets := ainsert device.id [] s.devices_datasets,
             dataset_limits := ainsert device.id dataset_limit s.dataset_limits })

/-- `InMemoryStorage::update_device`: unconditional `HashMap::insert` of the
whole device record; `NotFound` (after inserting!) when the id was free. -/
def update_device (s : InMemoryStorage) (device : Device) :
    Except StorageError Unit × InMemoryStorage :=
  let old := alookup device.id s.devices
  let s1 := { s with devices := ainsert device.id device s.devices }
  match old with
  | some _ => (.ok (), s1)
  | none => (.error (.NotFound .Device), s1)

/-- `InMemoryStorage::get_device`. -/
def get_device (s : InMemoryStorage) (id : String) : Except StorageError Device :=
  match alookup id s.devices with
  | some device => .ok device
  | none => .error (.NotFound .Device)

/-- `InMemoryStorage::get_dataset`. -/
def get_dataset (s : InMemoryStorage) (id : String) : Except StorageError Dataset :=
  match alookup id s.datasets with
  | some ds => .ok ds
  | none => .error (.NotFound .Dataset)

/-- `InMemoryStorage::new_dataset` (dataset id from the two random words). -/
def new_dataset (s : InMemoryStorage) (limit : Nat) (device_id : String) (r1 r2 : Nat) :
    Except StorageError (Dataset × InMemoryStorage) :=
  let dataset : Dataset := { id := new_dataset_id r1 r2, limit := limit, count := 0, web3 := none }
  match alookup device_id s.devices_datasets with
  | none => .error (.NotFound .Device)
  | some dataset_list =>
    .ok (dataset,
      { s with devices_datasets := ainsert device_id (dataset_list ++ [dataset.id]) s.devices_datasets,
               datasets := ainsert dataset.id dataset s.datasets,
               datasets_flight_datas := ainsert dataset.id [] s.datasets_flight_datas })

/-- `InMemoryStorage::new_flight_data`.  Mirrors the source flow: duplicate
check (restoring the old record), open-dataset lookup, dataset creation on
demand, count increment, and the two index updates.  A `none` result is a
Rust `unwrap` panic. -/
def new_flight_data (s : InMemoryStorage) (fd : FlightData) (device_id : String)
    (r1 r2 : Nat) : Option (Except StorageError Dataset × InMemoryStorage) :=
  match alookup fd.id s.fligth_data with
  | some _ => some (.error .AlreadyExists, s)
  | none =>
    let s1 := { s with fligth_data := ainsert fd.id fd s.fligth_data }
    match alookup device_id s1.devices_datasets with
    | none => some (.error (.NotFound .Device), s1)
    | some dataset_list =>
      let candidate : Option (Option Dataset) :=
        match dataset_list.getLast? with
        | none => some none
        | some ds_id =>
          match get_dataset s1 ds_id with
          | .ok c => some (if c.count < c.limit then some c else none)
          | .error _ => none
      match candidate with
      | none => none
      | some dataset0 =>
        let created : Option (Dataset × InMemoryStorage) :=
          match dataset0 with
          | some ds => some (ds, s1)
          | none =>
            match alookup device_id s1.dataset_limits with
            | none => none
            | some dataset_limit =>
              match new_dataset s1 dataset_limit device_id r1 r2 with
              | .ok res => some res
              | .error _ => none
        match created with
        | none => none
        | some (ds, s2) =>
          match increment_dataset_count s2 ds.id with
          | .error _ => none
          | .ok (cnt, s3) =>
            let dataset1 := { ds with count := cnt }
            let s4 := { s3 with
              datasets_flight_datas :=
                amodify ds.id (fun fd_list => fd_list ++ [fd.id]) s3.datasets_flight_datas }
            let s5 := { s4 with
              flight_data_dataset := ainsert fd.id ds.id s4.flight_data_dataset }
            some (.ok dataset1, s5)

/-- `InMemoryStorage::get_latest_dataset`; `none` is the source `panic!` on
a dangling dataset id. -/
def get_latest_dataset (s : InMemoryStorage) (device_id : String) :
    Option (Except StorageError (Option Dataset)) :=
  match alookup device_id s.devices_datasets with
  | none => some (.error (.NotFound .Device))
  | some dataset_list =>
    match dataset_list.getLast? with
    | none => some (.ok none)
    | some dataset_id =>
      match alookup dataset_id s.datasets with
      | some dataset => some (.ok (some dataset))
      | none => none

end InMemoryStorage

/-! ## Redis storage backend (`src/storage/redis.rs`)

The Redis server is modelled as a key/value store of field hashes.  Field
values are tagged: `RVal.str` for plain strings, `RVal.nat` for the
`to_string` image of a number (Rust parses it back with
`str::parse`, which is the identity round trip the tag stands for), and
`RVal.w3` for the `serde_json` image of a present `web3` option.  A
mismatched tag at a parse site corresponds to a Rust parse `unwrap`
panic and is returned as `none`. -/

inductive RVal
  | str (s : String)
  | nat (n : Nat)
  | w3 (w : Web3Info)
deriving DecidableEq, Repr

/-- The key space of the Redis instance: every key holds a field hash. -/
structure RedisState where
  kv : List (String × List (String × RVal))
deriving DecidableEq, Repr

namespace RedisState

def empty : RedisState := ⟨[]⟩

def rexists (s : RedisState) (key : String) : Bool :=
  (alookup key s.kv).isSome

def hgetall (s : RedisState) (key : String) : List (String × RVal) :=
  (alookup key s.kv).getD []

def hget (s : RedisState) (key field : String) : Option RVal :=
  match alookup key s.kv with
  | none => none
  | some h => alookup field h

/-- `HSET`: set one field, keeping the other fields of the hash. -/
def hset (s : RedisState) (key field : String) (v : RVal) : RedisState :=
  ⟨ainsert key (ainsert field v (hgetall s key)) s.kv⟩

/-- `HSET` with several fields (`hset_multiple`). -/
def hsetMultiple (s : RedisState) (key : String) (fields : List (String × RVal)) : RedisState :=
  fields.foldl (fun acc fv => hset acc key fv.1 fv.2) s

end RedisState

namespace RedisStorage

def get_device_key (id : String) : String := "device:" ++ id

def get_flight_data_key (id : List Nat) : String := "flight_data:" ++ base58Encode id

def get_device_flight_data_key (id : String) : String := "device_flight_data:" ++ id

def get_dataset_key (id : String) : String := "dataset:" ++ id

def get_dataset_flight_data_key (id : String) : String := "dataset_flight_data:" ++ id

/-- `RedisStorage::get_device_fields` (note the constant `"0"` stored as
`dataset_count`). -/
def get_device_fields (device : Device) : List (String × RVal) :=
  [(("id"), .str device.id),
   (("public_key"), .str (hexEncode device.pk)),
   (("dataset_count"), .str ("0"))] ++
    (match device.web3 with
     | some w => [(("web3"), .w3 w)]
     | none => [])

/-- `RedisStorage::get_dataset_fields`. -/
def get_dataset_fields (ds : Dataset) (device_id : String) : List (String × RVal) :=
  [(("id"), .str ds.id),
   (("device"), .str (get_device_key device_id)),
   (("limit"), .nat ds.limit),
   (("count"), .nat ds.count)] ++
    (match ds.web3 with
     | some w => [(("web3"), .w3 w)]
     | none => [])

/-- `RedisStorage::new_device`: reject an existing device key, otherwise
atomically write the device hash and its counter-0 dataset hash. -/
def new_device (s : RedisState) (device : Device) (dataset_limit : Nat) :
    Except StorageError Unit × RedisState :=
  let device_key := get_device_key device.id
  if s.rexists device_key then (.error .AlreadyExists, s)
  else
    let dataset := Dataset.new device.id 0 dataset_limit
    let dataset_key := get_dataset_key dataset.id
    let s1 := s.hsetMultiple device_key (get_device_fields device)
    let s2 := s1.hsetMultiple dataset_key (get_dataset_fields dataset device.id)
    (.ok (), s2)

/-- `RedisStorage::update_device`: `NoOp` without a receipt, else `HSET` of
the single `web3` field of an existing device key. -/
def update_device (s : RedisState) (device : Device) :
    Except StorageError Unit × RedisState :=
  match device.web3 with
  | none => (.error .NoOp, s)
  | some w =>
    let device_key := get_device_key device.id
    if s.rexists device_key then
      (.ok (), s.hset device_key ("web3") (.w3 w))
    else (.error (.NotFound .Device), s)

def parseRValNat : RVal → Option Nat
  | .nat n => some n
  | .str str => parseNat str
  | .w3 _ => none

/-- `RedisStorage::no_lock_get_dataset`; `none` is a parse `unwrap` panic.
The missing-`count` check reports `MalformedData("limit")` exactly as the
source does. -/
def no_lock_get_dataset (s : RedisState) (key : String) :
    Option (Except StorageError Dataset) :=
  let dataset_data := s.hgetall key
  if dataset_data.isEmpty then some (.error (.NotFound .Dataset))
  else if (alookup ("id") dataset_data).isNone then some (.error (.MalformedData ("id")))
  else if (alookup ("device") dataset_data).isNone then some (.error (.MalformedData ("device")))
  else if (alookup ("limit") dataset_data).isNone then some (.error (.MalformedData ("limit")))
  else if (alookup ("count") dataset_data).isNone then some (.error (.MalformedData ("limit")))
  else
    match alookup ("id") dataset_data with
    | some (.str id) =>
      match parseRValNat ((alookup ("limit") dataset_data).getD (.str (""))),
            parseRValNat ((alookup ("count") dataset_data).getD (.str (""))) with
      | some limit, some count =>
        match alookup ("web3") dataset_data with
        | none => some (.ok { id := id, limit := limit, count := count, web3 := none })
        | some (.w3 w) => some (.ok { id := id, limit := limit, count := count, web3 := some w })
        | some _ => none
      | _, _ => none
    | _ => none

/-- `RedisStorage::get_latest_dataset`: read the device's `dataset_count`
counter, then the dataset at the hash-chain id for that counter.  A Redis
conversion failure surfaces as `Generic`. -/
def get_latest_dataset (s : RedisState) (device_id : String) :
    Option (Except StorageError (Option Dataset)) :=
  match s.hget (get_device_key device_id) ("dataset_count") with
  | none => some (.error .Generic)
  | some v =>
    match parseRValNat v with
    | none => some (.error .Generic)
    | some dataset_counter =>
      match no_lock_get_dataset s (get_dataset_key (Dataset.dataset_id device_id dataset_counter)) with
      | none => none
      | some (.error e) => some (.error e)
      | some (.ok ds) => some (.ok (some ds))

/-- Modelled from the spec: the server-side Lua script behind
`RedisStorage::new_flight_data` is not part of the sources (only its
`include_str!` call site is).  The specification pins its first step and
the failure it produces — an existence check on the record key, failing
`AlreadyExists` before any write — while the remaining atomic steps
(counter increment, dataset create-or-read, record write, index updates)
are abstracted as the continuation `rest`, which only runs when the record
id is new. -/
def script_new_flight_data
    (rest : RedisState → FlightData → String → Except StorageError String × RedisState)
    (s : RedisState) (fd : FlightData) (device_id : String) :
    Except StorageError String × RedisState :=
  let fd_key := get_flight_data_key fd.id
  if s.rexists fd_key then (.error .AlreadyExists, s)
  else rest s fd device_id

end RedisStorage

/-! ## Web3 layer (`src/web3/traits.rs`, `src/web3/ethereum.rs`) and the
coordinator (`src/state/bitacora.rs`) -/

inductive Web3Error
  | ProviderConnectionFailed
  | SubmissionFailed
  | InternalServerError
  | BadInputData (what : String)
deriving DecidableEq, Repr

inductive BitacoraError
  | StorageFailure (e : StorageError)
  | Web3Failure
  | BadId (e : IdError)
  | CompletedWithError (inner : BitacoraError)
deriving DecidableEq, Repr

/-- `Timestamper::flight_data_web3_info` (default trait method): rebuild the
Merkle tree from the canonical byte forms, compute the proof of the record
bytes (`unwrap` panic as `none`) and inherit `blockchain` and `tx` from the
dataset receipt while attaching a `Proof` Merkle receipt. -/
def flight_data_web3_info (fd : FlightData) (flight_datas : List FlightData)
    (dataset_receipt : Web3Info) : Option (Except Web3Error Web3Info) :=
  let fd_mt := treeOfList keccak256 (flight_datas.map FlightData.to_bytes)
  let test_bytes := fd.to_bytes
  match (MerkleTreeAppendOnly.proof keccak256 fd_mt test_bytes).1 with
  | none => none
  | some pf =>
    some (.ok { blockchain := dataset_receipt.blockchain, tx := dataset_receipt.tx,
                merkle_receipt := some (.Proof pf) })

/-- `EthereumTimestamper::register_dataset`, receipt construction: the tree
of the record byte forms is built, its root submitted on chain (the
transaction hash is the external input `txHash`), and the receipt returned
to the coordinator carries the full tree as a `Tree` Merkle receipt. -/
def EthereumTimestamper.register_dataset_receipt (txHash : List Nat)
    (flight_datas : List FlightData) : Web3Info :=
  let fd_mt := treeOfList keccak256 (flight_datas.map FlightData.to_bytes)
  let fd_mt1 := (MerkleTreeAppendOnly.root keccak256 fd_mt).2
  { blockchain := Blockchain.devnet, tx := { hash := txHash, status := .Confirmed },
    merkle_receipt := some (.Tree fd_mt1) }

/-- `Bitacora::timestamp_dataset`: attach the timestamper's receipt to the
dataset as returned — no rewriting of the Merkle receipt — and hand the
record to `storage.set_dataset`, which persists it unchanged. -/
def Coordinator.timestamp_dataset (w3result : Except Web3Error Web3Info) (dataset : Dataset) :
    Except BitacoraError Dataset :=
  match w3result with
  | .ok web3_info => .ok { dataset with web3 := some web3_info }
  | .error _ => .error .Web3Failure

/-- Boolean discriminator: is the receipt the `Root` variant? -/
def isRootReceipt : Option MerkleTreeReceipt → Bool
  | some (.Root _) => true
  | _ => false

/-- Boolean discriminator: is the receipt the `Tree` variant? -/
def isTreeReceipt : Option MerkleTreeReceipt → Bool
  | some (.Tree _) => true
  | _ => false

/-- Boolean pairwise distinctness of byte strings. -/
def allDistinct : List (List Nat) → Bool
  | [] => true
  | x :: xs => xs.all (fun y => x != y) && allDistinct xs

def testLeaves (ss : List String) : List (List Nat) := ss.map strBytes

def fiveTestLeaves : List (List Nat) := testLeaves ["a", "b", "c", "d", "e"]

def sixTestLeaves : List (List Nat) := testLeaves ["a", "b", "c", "d", "e", "f"]

def sevenTestLeaves : List (List Nat) := testLeaves ["a", "b", "c", "d", "e", "f", "g"]

def eightTestLeaves : List (List Nat) := testLeaves ["a", "b", "c", "d", "e", "f", "g", "h"]

end Bitacora

namespace Bitacora

open MerkleTreeAppendOnly

set_option maxRecDepth 1000000

/-! ## Validation of the embedded hashers and Merkle engine against the
repository test-suite vectors (`src/common/merkle.rs` tests) -/

/-- The embedded Keccak-256 reproduces the leaf hash of `"a"` expected by
the repository tests. -/
theorem keccak256_matches_testsuite_leaf_a :
    hexEncode (keccak256 (strBytes ("a"))) =
      ("3ac225168df54212a25c1c01fd35bebfea408fdac2e31ddd6f80a4bbf9a5f1cb") := by
  decide

/-- The embedded SHA-256 reproduces the standard `"abc"` test vector. -/
theorem sha256_matches_standard_vector_abc :
    hexEncode (sha256 (strBytes ("abc"))) =
      ("ba7816bf8f01cfea414140de5dae2223b00361a396177a9cb410ff61f20015ad") := by
  decide

/-- The embedded Merkle engine reproduces the five-leaf root of the
repository test `test_merkle_tree_with_odd_elements`. -/
theorem merkle_root_matches_testsuite_five_leaves :
    ((root keccak256 (treeOfList keccak256 fiveTestLeaves)).1).map hexEncode =
      some ("1dd0d2a6ae466d665cb26e1a31f07c57ae5df7d2bc559cd5826d417be9141a5d") := by
  decide

/-- The embedded Merkle engine reproduces the six-leaf root of the
repository test `test_merkle_tree_with_even_elements`. -/
theorem merkle_root_matches_testsuite_six_leaves :
    ((root keccak256 (treeOfList keccak256 sixTestLeaves)).1).map hexEncode =
      some ("9012f1e18a87790d2e01faace75aaaca38e53df437cdce2c0552464dda4af49c") := by
  decide

/-- The embedded `proof` reproduces the five-leaf proof of `"b"` expected by
the repository test-suite. -/
theorem merkle_proof_matches_testsuite_five_leaves_b :
    (((proof keccak256 (root keccak256 (treeOfList keccak256 fiveTestLeaves)).2
        (strBytes ("b"))).1).map (fun pf => pf.map hexEncode)) =
      some [("3ac225168df54212a25c1c01fd35bebfea408fdac2e31ddd6f80a4bbf9a5f1cb"),
            ("d253a52d4cb00de2895e85f2529e2976e6aaaa5c18106b68ab66813e14415669"),
            ("a8982c89d80987fb9a510e25981ee9170206be21af3c8e0eb312ef1d3382e761")] := by
  decide

/-! ## Claim C1 -/

/-- Claim C1 (code bug, evaluation at the failing input): the seven byte
strings `"a"` .. `"g"` have pairwise-distinct Keccak-256 hashes, appending
them in order to a fresh `MerkleTreeAppendOnly` gives a tree whose `root()`
and `proof("a")` are both `Some`, yet `verify_from_root` rejects that proof
— the round trip claimed for every non-empty distinct-hash list fails at
seven leaves.  (`compute` only tracks one odd-level carry, so with level
widths 7 and 3 the pair `e`,`f` never reaches the root: the tree has 12
nodes instead of 13.) -/
theorem c1_roundtrip_fails_at_seven_leaves :
    allDistinct (sevenTestLeaves.map keccak256) = true ∧
    sevenTestLeaves ≠ [] ∧
    ((root keccak256 (treeOfList keccak256 sevenTestLeaves)).1).isSome = true ∧
    ((proof keccak256 (root keccak256 (treeOfList keccak256 sevenTestLeaves)).2
        (strBytes ("a"))).1).isSome = true ∧
    verify_from_root keccak256
      (((root keccak256 (treeOfList keccak256 sevenTestLeaves)).1).getD [])
      (strBytes ("a"))
      (((proof keccak256 (root keccak256 (treeOfList keccak256 sevenTestLeaves)).2
          (strBytes ("a"))).1).getD []) = false ∧
    (root keccak256 (treeOfList keccak256 sevenTestLeaves)).2.nodes.length = 12 := by
  refine ⟨by decide, by decide, by decide, by decide, by decide, by decide⟩

/-! ## Claim C2 -/

/-- Claim C2 (code bug, evaluation at the failing input): with
`A = ["a" .. "g"]` and `B = ["h"]`, appending `A` to a fresh tree, calling
`root()`, appending `B` and calling `root()` again yields a different root
than one fresh build of `A ++ B` — the truncation of `nodes` to
`(nodes.len() + 1) / 2` assumes `2 n - 1` nodes, but the seven-leaf
`compute` keeps only 12, so the truncation to 6 entries drops the leaf
hash of `"g"` instead of only stale interior nodes. -/
theorem c2_lazy_recompute_diverges_at_seven_leaves :
    ((root keccak256 (append keccak256
        (root keccak256 (treeOfList keccak256 sevenTestLeaves)).2
        (strBytes ("h")))).1).isSome = true ∧
    ((root keccak256 (treeOfList keccak256 (sevenTestLeaves ++ [strBytes ("h")]))).1).isSome = true ∧
    (root keccak256 (append keccak256
        (root keccak256 (treeOfList keccak256 sevenTestLeaves)).2
        (strBytes ("h")))).1 ≠
      (root keccak256 (treeOfList keccak256 (sevenTestLeaves ++ [strBytes ("h")]))).1 := by
  refine ⟨by decide, by decide, by decide⟩

/-! ## Claim C3 -/

def c3SampleFlightData : FlightData :=
  { id := List.replicate 32 7, signature := "", timestamp := 1701305636123,
    localization := { longitude := 0x402CD9F5AF2CF58B, latitude := 0x40446913D9D8A37D },
    payload := [] }

def c3SampleDataset : Dataset :=
  { id := "sealed-dataset", limit := 1, count := 1, web3 := none }

/-- Claim C3 (code bug, evaluation at the failing input): when a sealed
dataset is notarized through `EthereumTimestamper::register_dataset`, the
receipt carries the full tree (`Tree` variant) and
`Bitacora::timestamp_dataset` persists that receipt as returned — the
stored `merkle_receipt` is the `Tree` variant, not the `Root` variant the
claim requires, and no rewrite to `Root` exists in the sources. -/
theorem c3_persisted_receipt_is_tree_not_root :
    Coordinator.timestamp_dataset
        (.ok (EthereumTimestamper.register_dataset_receipt (List.replicate 32 0)
          [c3SampleFlightData])) c3SampleDataset =
      .ok { c3SampleDataset with
        web3 := some (EthereumTimestamper.register_dataset_receipt (List.replicate 32 0)
          [c3SampleFlightData]) } ∧
    isTreeReceipt (EthereumTimestamper.register_dataset_receipt (List.replicate 32 0)
        [c3SampleFlightData]).merkle_receipt = true ∧
    isRootReceipt (EthereumTimestamper.register_dataset_receipt (List.replicate 32 0)
        [c3SampleFlightData]).merkle_receipt = false := by
  refine ⟨rfl, by decide, by decide⟩

/-! ## Claim C6 -/

def c6SampleFlightData : FlightData :=
  { id := FlightDataId.new 1701305636123 ("test-device"), signature := "sig",
    localization := { longitude := 0x402CD9F5AF2CF58B, latitude := 0x40446913D9D8A37D },
    timestamp := 1701305636123, payload := [1, 2, 3] }

/-- Claim C6 (confirmed): `FlightData::to_bytes` is exactly
`id_bytes || BE(timestamp, 8) || BE(latitude, 8) || BE(longitude, 8) || payload`
with all numeric fields encoded big-endian in 8 bytes (the coordinates via
their IEEE-754 bit patterns), and it is total: it is defined for every
record, and for the 32-byte ids produced by `FlightDataId` the result
always has `56 + payload.length` bytes. -/
theorem c6_to_bytes_canonical_form :
    ∀ fd : FlightData,
      fd.to_bytes = fd.id ++ be64 fd.timestamp ++ be64 fd.localization.latitude ++
        be64 fd.localization.longitude ++ fd.payload ∧
      (be64 fd.timestamp).length = 8 ∧
      (be64 fd.localization.latitude).length = 8 ∧
      (be64 fd.localization.longitude).length = 8 ∧
      (fd.id.length = 32 → fd.to_bytes.length = 56 + fd.payload.length) := by
  intro fd
  refine ⟨rfl, ?_, ?_, ?_, ?_⟩ <;>
    simp [be64, beBytes, FlightData.to_bytes]
  intro h
  simp [h]
  omega

/-- Witness for C6 at a concrete record. -/
theorem c6_to_bytes_canonical_form_witness :
    c6SampleFlightData.to_bytes.length = 56 + c6SampleFlightData.payload.length :=
  (c6_to_bytes_canonical_form c6SampleFlightData).2.2.2.2 (by decide)

/-! ## Claim C7 -/

/-- Claim C7 (confirmed): `FlightDataId::new(timestamp, device_id)` is
`SHA-256(0x01 || BE(timestamp, 8) || device_id_bytes)`; it takes only the
timestamp and device id, so records built from the same `(timestamp,
device_id)` receive the same id regardless of localization, payload or
signature; and at a concrete input the embedded SHA-256 produces the
reference digest. -/
theorem c7_flight_data_id_formula :
    (∀ (timestamp : Nat) (device_id : String),
      FlightDataId.new timestamp device_id =
        sha256 ([FLIGHT_DATA_ID_PREFIX_BYTE] ++ be64 timestamp ++ utf8Encode device_id)) ∧
    (∀ (device_id : String) (timestamp : Nat) (loc1 loc2 : LocalizationPoint)
        (p1 p2 : List Nat) (sig1 sig2 : String),
      (flight_data_from_request device_id timestamp loc1 p1 sig1).id =
        (flight_data_from_request device_id timestamp loc2 p2 sig2).id) ∧
    FlightDataId.new 1701305636123 ("test-device") =
      [0xaf, 0x14, 0xfa, 0x40, 0x01, 0xe0, 0xdf, 0x58, 0xbf, 0x40, 0x3c, 0xc2,
       0x59, 0x99, 0x7c, 0x8e, 0x0b, 0x58, 0x0f, 0x60, 0x9c, 0x89, 0x2b, 0xea,
       0x2f, 0xb5, 0x0c, 0x24, 0xe7, 0x9b, 0x6a, 0x2d] := by
  refine ⟨fun _ _ => rfl, fun _ _ _ _ _ _ _ _ => rfl, by decide⟩

/-! ## Map lemmas shared by the storage proofs -/

theorem alookup_ainsert_self {κ ν : Type} [DecidableEq κ] (k : κ) (v : ν) (l : List (κ × ν)) :
    alookup k (ainsert k v l) = some v := by
  induction l with
  | nil => simp [ainsert, alookup]
  | cons p rest ih =>
    obtain ⟨k1, v1⟩ := p
    by_cases h : k1 = k <;> simp [ainsert, alookup, h, ih]

theorem alookup_ainsert_ne {κ ν : Type} [DecidableEq κ] {k k1 : κ} (v : ν) (l : List (κ × ν))
    (h : k1 ≠ k) : alookup k1 (ainsert k v l) = alookup k1 l := by
  induction l with
  | nil => simp [ainsert, alookup, Ne.symm h]
  | cons p rest ih =>
    obtain ⟨k2, v2⟩ := p
    by_cases h2 : k2 = k
    · subst h2
      simp [ainsert, alookup, Ne.symm h]
    · simp [ainsert, alookup, h2, ih]

theorem alookup_eq_none_of_not_mem_keys {κ ν : Type} [DecidableEq κ] {k : κ} {l : List (κ × ν)}
    (h : k ∉ l.map Prod.fst) : alookup k l = none := by
  induction l with
  | nil => rfl
  | cons p rest ih =>
    simp only [List.map_cons, List.mem_cons] at h
    push_neg at h
    simp [alookup, Ne.symm h.1, ih h.2]

theorem ainsert_keys_of_fresh {κ ν : Type} [DecidableEq κ] {k : κ} (v : ν) {l : List (κ × ν)}
    (h : k ∉ l.map Prod.fst) : (ainsert k v l).map Prod.fst = l.map Prod.fst ++ [k] := by
  induction l with
  | nil => simp [ainsert]
  | cons p rest ih =>
    obtain ⟨k1, v1⟩ := p
    simp only [List.map_cons, List.mem_cons] at h
    push_neg at h
    simp [ainsert, Ne.symm h.1, ih h.2]

/-! ## Claim C8 -/

/-- Claim C8 (confirmed): a `new_flight_data` call whose record id is
already stored fails with `AlreadyExists` and leaves the store — in
particular every dataset count and the device dataset list — exactly as it
was.  First conjunct: `InMemoryStorage::new_flight_data` (the duplicate
insert is undone before returning).  Second conjunct: the server-side
script of `RedisStorage::new_flight_data`, whose spec-pinned first step
checks the record key and fails before any write, for every continuation
`rest` of the remaining steps. -/
theorem c8_duplicate_new_flight_data_rejected_atomically :
    (∀ (s : InMemoryStorage) (fd : FlightData) (device_id : String) (r1 r2 : Nat),
      (alookup fd.id s.fligth_data).isSome = true →
      InMemoryStorage.new_flight_data s fd device_id r1 r2 =
        some (.error .AlreadyExists, s)) ∧
    (∀ (rest : RedisState → FlightData → String → Except StorageError String × RedisState)
        (s : RedisState) (fd : FlightData) (device_id : String),
      s.rexists (RedisStorage.get_flight_data_key fd.id) = true →
      RedisStorage.script_new_flight_data rest s fd device_id =
        (.error .AlreadyExists, s)) := by
  constructor
  · intro s fd device_id r1 r2 h
    unfold InMemoryStorage.new_flight_data
    obtain ⟨fd0, hfd⟩ := Option.isSome_iff_exists.mp h
    simp [hfd]
  · intro rest s fd device_id h
    unfold RedisStorage.script_new_flight_data
    simp [h]

def c8SampleFlightData : FlightData :=
  { id := List.replicate 32 9, signature := "", timestamp := 5,
    localization := { longitude := 0, latitude := 0 }, payload := [] }

def c8SampleStore : InMemoryStorage :=
  { InMemoryStorage.empty with
    fligth_data := [(c8SampleFlightData.id, c8SampleFlightData)] }

def c8SampleRedis : RedisState :=
  ⟨[(RedisStorage.get_flight_data_key c8SampleFlightData.id,
     [(("id"), RVal.str (base58Encode c8SampleFlightData.id))])]⟩

/-- Witness for C8 at a concrete store holding the duplicate record. -/
theorem c8_duplicate_new_flight_data_rejected_atomically_witness :
    InMemoryStorage.new_flight_data c8SampleStore c8SampleFlightData ("d") 0 0 =
      some (.error .AlreadyExists, c8SampleStore) ∧
    RedisStorage.script_new_flight_data (fun s _ _ => (.ok (""), s)) c8SampleRedis
      c8SampleFlightData ("d") = (.error .AlreadyExists, c8SampleRedis) :=
  ⟨c8_duplicate_new_flight_data_rejected_atomically.1 c8SampleStore c8SampleFlightData
      ("d") 0 0 (by decide),
   c8_duplicate_new_flight_data_rejected_atomically.2 (fun s _ _ => (.ok (""), s))
      c8SampleRedis c8SampleFlightData ("d") (by decide)⟩

/-! ## Redis hash lemmas -/

theorem alookup_hset_self (s : RedisState) (key f : String) (v : RVal) :
    alookup key (s.hset key f v).kv = some (ainsert f v (s.hgetall key)) :=
  alookup_ainsert_self key _ s.kv

theorem alookup_hset_ne (s : RedisState) {k key : String} (f : String) (v : RVal)
    (h : k ≠ key) : alookup k (s.hset key f v).kv = alookup k s.kv :=
  alookup_ainsert_ne _ s.kv h

theorem hget_hset_self (s : RedisState) (key f : String) (v : RVal) :
    (s.hset key f v).hget key f = some v := by
  unfold RedisState.hget
  rw [alookup_hset_self]
  exact alookup_ainsert_self f v (s.hgetall key)

theorem hget_hset_same_key_other_field (s : RedisState) (key : String) {f f1 : String}
    (v : RVal) (h : f1 ≠ f) : (s.hset key f v).hget key f1 = s.hget key f1 := by
  unfold RedisState.hget
  rw [alookup_hset_self]
  cases hk : alookup key s.kv with
  | none => simp [RedisState.hgetall, hk, alookup_ainsert_ne _ _ h, alookup]
  | some hsh => simp [RedisState.hgetall, hk, alookup_ainsert_ne _ _ h]

theorem hget_hset_other_key (s : RedisState) {k key : String} (f f1 : String) (v : RVal)
    (h : k ≠ key) : (s.hset key f v).hget k f1 = s.hget k f1 := by
  unfold RedisState.hget
  rw [alookup_hset_ne _ _ _ h]

/-! ## Claim C9 -/

def c9DeviceOld : Device := { id := "d", pk := List.replicate 32 1, web3 := none }

def c9DeviceNew : Device := { id := "d", pk := List.replicate 32 2, web3 := none }

def c9SampleStore : InMemoryStorage :=
  { InMemoryStorage.empty with devices := [(("d"), c9DeviceOld)] }

/-- Claim C9 (counterexample): on the in-memory backend, `update_device`
with a device whose `web3` is absent succeeds instead of failing `NoOp`,
and it overwrites the whole stored record — here the stored public key
changes — instead of only the `web3` field. -/
theorem c9_counterexample_update_device_overwrites_all_fields :
    (InMemoryStorage.update_device c9SampleStore c9DeviceNew).1 = .ok () ∧
    alookup ("d") (InMemoryStorage.update_device c9SampleStore c9DeviceNew).2.devices =
      some c9DeviceNew ∧
    c9DeviceNew.pk ≠ c9DeviceOld.pk ∧
    c9DeviceNew.web3 = none := by
  refine ⟨rfl, by decide, by decide, rfl⟩

/-- Claim C9 (amended): the Redis backend behaves as claimed —
`update_device` fails `NoOp` when `web3` is absent (store untouched),
fails `NotFound(Device)` leaving the store unchanged when the device key
does not exist, and otherwise overwrites exactly the `web3` field of the
device hash, leaving its other fields and every other key unchanged.  The
in-memory backend instead always inserts the whole device record — so any
stored field may change, a missing `web3` is not rejected, and a miss
still mutates the store before `NotFound` is returned. -/
theorem c9_amended_update_device :
    (∀ (s : RedisState) (d : Device), d.web3 = none →
      RedisStorage.update_device s d = (.error .NoOp, s)) ∧
    (∀ (s : RedisState) (d : Device) (w : Web3Info), d.web3 = some w →
      s.rexists (RedisStorage.get_device_key d.id) = false →
      RedisStorage.update_device s d = (.error (.NotFound .Device), s)) ∧
    (∀ (s : RedisState) (d : Device) (w : Web3Info), d.web3 = some w →
      s.rexists (RedisStorage.get_device_key d.id) = true →
      RedisStorage.update_device s d =
        (.ok (), s.hset (RedisStorage.get_device_key d.id) ("web3") (.w3 w)) ∧
      (s.hset (RedisStorage.get_device_key d.id) ("web3") (.w3 w)).hget
          (RedisStorage.get_device_key d.id) ("web3") = some (.w3 w) ∧
      (∀ f : String, f ≠ ("web3") →
        (s.hset (RedisStorage.get_device_key d.id) ("web3") (.w3 w)).hget
            (RedisStorage.get_device_key d.id) f =
          s.hget (RedisStorage.get_device_key d.id) f) ∧
      (∀ k : String, k ≠ RedisStorage.get_device_key d.id →
        alookup k ((s.hset (RedisStorage.get_device_key d.id) ("web3") (.w3 w))).kv =
          alookup k s.kv)) ∧
    (∀ (s : InMemoryStorage) (d : Device),
      InMemoryStorage.update_device s d =
        ((if (alookup d.id s.devices).isSome then .ok () else .error (.NotFound .Device)),
         { s with devices := ainsert d.id d s.devices })) := by
  refine ⟨?_, ?_, ?_, ?_⟩
  · intro s d h
    simp [RedisStorage.update_device, h]
  · intro s d w h hne
    simp [RedisStorage.update_device, h, hne]
  · intro s d w h hex
    refine ⟨by simp [RedisStorage.update_device, h, hex], hget_hset_self _ _ _ _, ?_, ?_⟩
    · intro f hf
      exact hget_hset_same_key_other_field _ _ _ hf
    · intro k hk
      exact alookup_hset_ne _ _ _ hk
  · intro s d
    unfold InMemoryStorage.update_device
    cases h : alookup d.id s.devices <;> simp [h]

def c9RedisStore : RedisState :=
  ⟨[(("device:d"),
     [(("id"), RVal.str ("d")), (("public_key"), RVal.str ("01")),
      (("dataset_count"), RVal.str ("0"))])]⟩

def c9Web3 : Web3Info :=
  { blockchain := Blockchain.ethereum, tx := { hash := List.replicate 32 3, status := .Confirmed },
    merkle_receipt := none }

def c9DeviceWithReceipt : Device :=
  { id := "d", pk := List.replicate 32 1, web3 := some c9Web3 }

/-- Witness for the amended C9 at concrete stores. -/
theorem c9_amended_update_device_witness :
    RedisStorage.update_device c9RedisStore c9DeviceNew = (.error .NoOp, c9RedisStore) ∧
    RedisStorage.update_device c9RedisStore c9DeviceWithReceipt =
      (.ok (), c9RedisStore.hset (RedisStorage.get_device_key ("d")) ("web3") (.w3 c9Web3)) ∧
    (c9RedisStore.hset (RedisStorage.get_device_key ("d")) ("web3") (.w3 c9Web3)).hget
        (RedisStorage.get_device_key ("d")) ("public_key") =
      c9RedisStore.hget (RedisStorage.get_device_key ("d")) ("public_key") ∧
    InMemoryStorage.update_device c9SampleStore c9DeviceNew =
      (.ok (), { c9SampleStore with devices := ainsert ("d") c9DeviceNew c9SampleStore.devices }) := by
  refine ⟨c9_amended_update_device.1 c9RedisStore c9DeviceNew rfl, ?_, ?_, ?_⟩
  · exact (c9_amended_update_device.2.2.1 c9RedisStore c9DeviceWithReceipt c9Web3 rfl (by decide)).1
  · exact (c9_amended_update_device.2.2.1 c9RedisStore c9DeviceWithReceipt c9Web3 rfl
      (by decide)).2.2.1 ("public_key") (by decide)
  · have h := c9_amended_update_device.2.2.2 c9SampleStore c9DeviceNew
    rw [h]
    rfl

/-! ## Claim C5 -/

theorem hget_hsetMultiple_other_key (fields : List (String × RVal)) :
    ∀ (s : RedisState) {k key : String} (f : String), k ≠ key →
      (s.hsetMultiple key fields).hget k f = s.hget k f := by
  induction fields with
  | nil => intro s k key f _; rfl
  | cons fv rest ih =>
    intro s k key f h
    show ((s.hset key fv.1 fv.2).hsetMultiple key rest).hget k f = _
    rw [ih _ _ h, hget_hset_other_key _ _ _ _ h]

theorem alookup_hsetMultiple_ne (fields : List (String × RVal)) :
    ∀ (s : RedisState) {k key : String}, k ≠ key →
      alookup k (s.hsetMultiple key fields).kv = alookup k s.kv := by
  induction fields with
  | nil => intro s k key _; rfl
  | cons fv rest ih =>
    intro s k key h
    show alookup k (((s.hset key fv.1 fv.2).hsetMultiple key rest)).kv = _
    rw [ih _ h, alookup_hset_ne _ _ _ h]

theorem hgetall_hset_self (s : RedisState) (key f : String) (v : RVal) :
    (s.hset key f v).hgetall key = ainsert f v (s.hgetall key) := by
  unfold RedisState.hgetall
  rw [alookup_hset_self]
  rfl

theorem hgetall_hsetMultiple_self (fields : List (String × RVal)) :
    ∀ s : RedisState, ∀ key : String,
      (s.hsetMultiple key fields).hgetall key =
        fields.foldl (fun h fv => ainsert fv.1 fv.2 h) (s.hgetall key) := by
  induction fields with
  | nil => intro s key; rfl
  | cons fv rest ih =>
    intro s key
    show ((s.hset key fv.1 fv.2).hsetMultiple key rest).hgetall key = _
    rw [ih, hgetall_hset_self]
    rfl

theorem device_key_ne_dataset_key (a b : String) :
    RedisStorage.get_device_key a ≠ RedisStorage.get_dataset_key b := by
  intro h
  have h2 := congrArg String.data h
  simp only [RedisStorage.get_device_key, RedisStorage.get_dataset_key,
    String.data_append] at h2
  have h4 := congrArg (fun l => l.get? 1) h2
  simp at h4

/-- The `dataset_count` field of the device hash right after
`get_device_fields` is written is the literal string `"0"`. -/
theorem hget_dataset_count_after_device_fields (s : RedisState) (device : Device) :
    (s.hsetMultiple (RedisStorage.get_device_key device.id)
        (RedisStorage.get_device_fields device)).hget
      (RedisStorage.get_device_key device.id) ("dataset_count") = some (.str ("0")) := by
  cases hw : device.web3 with
  | none =>
    simp only [RedisStorage.get_device_fields, hw, RedisState.hsetMultiple,
      List.foldl_cons, List.foldl_nil, List.append_nil]
    exact hget_hset_self _ _ _ _
  | some w =>
    simp only [RedisStorage.get_device_fields, hw, RedisState.hsetMultiple,
      List.foldl_cons, List.foldl_nil, List.cons_append, List.nil_append]
    rw [hget_hset_same_key_other_field _ _ _ (show ("dataset_count" : String) ≠ ("web3") by decide)]
    exact hget_hset_self _ _ _ _

def c5Device : Device := { id := "d", pk := List.replicate 32 0, web3 := none }

/-- Claim C5 (counterexample): on the in-memory backend `new_device`
succeeds but allocates no initial dataset, so an immediately following
`get_latest_dataset` returns `None` instead of the claimed counter-0
dataset with `count = 0`. -/
theorem c5_counterexample_in_memory_new_device_allocates_no_dataset :
    (InMemoryStorage.new_device InMemoryStorage.empty c5Device 10).1 = .ok () ∧
    InMemoryStorage.get_latest_dataset
        (InMemoryStorage.new_device InMemoryStorage.empty c5Device 10).2 ("d") =
      some (.ok none) :=
  ⟨rfl, rfl⟩

/-- Claim C5 (amended): on the Redis backend, for a fresh device — its
device key and its counter-0 dataset key not yet present — `new_device`
inserts the device and atomically allocates the counter-0 dataset with
`count = 0` and the given limit, so that an immediately following
`get_latest_dataset(device.id)` returns exactly that dataset; when the
device key is already taken it fails `AlreadyExists` leaving the store
unchanged.  The in-memory backend inserts the device but allocates no
dataset (its first dataset is created on first ingestion), so there
`get_latest_dataset` returns `None`. -/
theorem c5_amended_redis_new_device :
    ∀ (s : RedisState) (device : Device) (L : Nat),
      (alookup (RedisStorage.get_device_key device.id) s.kv = none →
       alookup (RedisStorage.get_dataset_key (Dataset.dataset_id device.id 0)) s.kv = none →
       (RedisStorage.new_device s device L).1 = .ok () ∧
       RedisStorage.get_latest_dataset (RedisStorage.new_device s device L).2 device.id =
         some (.ok (some (Dataset.new device.id 0 L)))) ∧
      ((alookup (RedisStorage.get_device_key device.id) s.kv).isSome = true →
       RedisStorage.new_device s device L = (.error .AlreadyExists, s)) := by
  intro s device L
  constructor
  · intro hdev hds
    have hex : s.rexists (RedisStorage.get_device_key device.id) = false := by
      simp [RedisState.rexists, hdev]
    have hne2 : RedisStorage.get_device_key device.id ≠
        RedisStorage.get_dataset_key (Dataset.dataset_id device.id 0) :=
      device_key_ne_dataset_key _ _
    have hne : RedisStorage.get_dataset_key (Dataset.dataset_id device.id 0) ≠
        RedisStorage.get_device_key device.id := fun h => hne2 h.symm
    have hnd : RedisStorage.new_device s device L =
        (.ok (), (s.hsetMultiple (RedisStorage.get_device_key device.id)
            (RedisStorage.get_device_fields device)).hsetMultiple
          (RedisStorage.get_dataset_key (Dataset.dataset_id device.id 0))
          (RedisStorage.get_dataset_fields (Dataset.new device.id 0 L) device.id)) := by
      simp [RedisStorage.new_device, hex, Dataset.new]
    rw [hnd]
    refine ⟨rfl, ?_⟩
    have hcount : ((s.hsetMultiple (RedisStorage.get_device_key device.id)
        (RedisStorage.get_device_fields device)).hsetMultiple
          (RedisStorage.get_dataset_key (Dataset.dataset_id device.id 0))
          (RedisStorage.get_dataset_fields (Dataset.new device.id 0 L) device.id)).hget
        (RedisStorage.get_device_key device.id) ("dataset_count") = some (.str ("0")) := by
      rw [hget_hsetMultiple_other_key _ _ _ hne2]
      exact hget_dataset_count_after_device_fields s device
    have hempty : (s.hsetMultiple (RedisStorage.get_device_key device.id)
        (RedisStorage.get_device_fields device)).hgetall
          (RedisStorage.get_dataset_key (Dataset.dataset_id device.id 0)) = [] := by
      unfold RedisState.hgetall
      rw [alookup_hsetMultiple_ne _ _ hne, hds]
      rfl
    have hhash : ((s.hsetMultiple (RedisStorage.get_device_key device.id)
        (RedisStorage.get_device_fields device)).hsetMultiple
          (RedisStorage.get_dataset_key (Dataset.dataset_id device.id 0))
          (RedisStorage.get_dataset_fields (Dataset.new device.id 0 L) device.id)).hgetall
        (RedisStorage.get_dataset_key (Dataset.dataset_id device.id 0)) =
        [(("id"), .str (Dataset.dataset_id device.id 0)),
         (("device"), .str (RedisStorage.get_device_key device.id)),
         (("limit"), .nat L), (("count"), .nat 0)] := by
      rw [hgetall_hsetMultiple_self, hempty]
      rfl
    have hnl : RedisStorage.no_lock_get_dataset
        ((s.hsetMultiple (RedisStorage.get_device_key device.id)
            (RedisStorage.get_device_fields device)).hsetMultiple
          (RedisStorage.get_dataset_key (Dataset.dataset_id device.id 0))
          (RedisStorage.get_dataset_fields (Dataset.new device.id 0 L) device.id))
        (RedisStorage.get_dataset_key (Dataset.dataset_id device.id 0)) =
        some (Except.ok (Dataset.new device.id 0 L)) := by
      unfold RedisStorage.no_lock_get_dataset
      rw [hhash]
      rfl
    simp only [RedisStorage.get_latest_dataset, hcount,
      show RedisStorage.parseRValNat (RVal.str ("0")) = some 0 from rfl, hnl]
  · intro h
    simp [RedisStorage.new_device, RedisState.rexists, h]

/-- Witness for the amended C5 on an empty store. -/
theorem c5_amended_redis_new_device_witness :
    (RedisStorage.new_device RedisState.empty c5Device 10).1 = .ok () ∧
    RedisStorage.get_latest_dataset (RedisStorage.new_device RedisState.empty c5Device 10).2
        c5Device.id = some (.ok (some (Dataset.new c5Device.id 0 10))) :=
  (c5_amended_redis_new_device RedisState.empty c5Device 10).1 rfl rfl

/-! ## Claim C4 -/
/-- Invariant of the in-memory store after `j` successful ingestions for
device `dev` with limit `L`: the stored record ids are `doneIds`, the
device's dataset-id list is `dsIds`, and the last dataset carries the
remainder count. -/
structure C4Inv (L : Nat) (dev : String) (doneIds : List (List Nat)) (dsIds : List String)
    (j : Nat) (s : InMemoryStorage) : Prop where
  hlim : alookup dev s.dataset_limits = some L
  hdd : alookup dev s.devices_datasets = some dsIds
  hfd : s.fligth_data.map Prod.fst = doneIds
  hshape : (dsIds = [] ∧ j = 0) ∨
    (dsIds ≠ [] ∧ L * (dsIds.length - 1) < j ∧ j ≤ L * dsIds.length)
  hlast : ∀ lastId, dsIds.getLast? = some lastId →
    alookup lastId s.datasets =
      some { id := lastId, limit := L, count := j - L * (dsIds.length - 1), web3 := none }

/-- The store produced by a creation-step ingestion. -/
def c4CreateState (s : InMemoryStorage) (fd : FlightData) (dev nid : String)
    (dsIds : List String) (L : Nat) : InMemoryStorage :=
  { s with
    fligth_data := ainsert fd.id fd s.fligth_data,
    devices_datasets := ainsert dev (dsIds ++ [nid]) s.devices_datasets,
    datasets := ainsert nid { id := nid, limit := L, count := 1, web3 := none }
      (ainsert nid { id := nid, limit := L, count := 0, web3 := none } s.datasets),
    datasets_flight_datas := amodify nid (fun l => l ++ [fd.id]) (ainsert nid [] s.datasets_flight_datas),
    flight_data_dataset := ainsert fd.id nid s.flight_data_dataset }

/-- The store produced by an increment-step ingestion. -/
def c4IncrementState (s : InMemoryStorage) (fd : FlightData) (lastId : String)
    (L c : Nat) : InMemoryStorage :=
  { s with
    fligth_data := ainsert fd.id fd s.fligth_data,
    datasets := ainsert lastId { id := lastId, limit := L, count := c + 1, web3 := none } s.datasets,
    datasets_flight_datas := amodify lastId (fun l => l ++ [fd.id]) s.datasets_flight_datas,
    flight_data_dataset := ainsert fd.id lastId s.flight_data_dataset }

theorem c4_step (L : Nat) (dev : String) (doneIds : List (List Nat)) (dsIds : List String)
    (j : Nat) (s : InMemoryStorage) (inv : C4Inv L dev doneIds dsIds j s)
    (fd : FlightData) (r1 r2 : Nat) (hL : 1 ≤ L) (hfresh : fd.id ∉ doneIds) :
    ∃ s1,
      InMemoryStorage.new_flight_data s fd dev r1 r2 =
        some (.ok
          { id := if j % L = 0 then InMemoryStorage.new_dataset_id r1 r2
                  else dsIds.getLast?.getD (""),
            limit := L, count := j % L + 1, web3 := none }, s1) ∧
      C4Inv L dev (doneIds ++ [fd.id])
        (if j % L = 0 then dsIds ++ [InMemoryStorage.new_dataset_id r1 r2] else dsIds)
        (j + 1) s1 := by
  have hL0 : ¬ (L ≤ 0) := by omega
  have h1 : alookup fd.id s.fligth_data = none := by
    apply alookup_eq_none_of_not_mem_keys
    rw [inv.hfd]; exact hfresh
  have hkeys : (ainsert fd.id fd s.fligth_data).map Prod.fst = doneIds ++ [fd.id] := by
    rw [ainsert_keys_of_fresh fd (by rw [inv.hfd]; exact hfresh), inv.hfd]
  by_cases hj : j % L = 0
  · rcases inv.hshape with ⟨hnil, hj0⟩ | ⟨hne, hlo, hhi⟩
    · -- first ever ingestion for the device
      subst hnil hj0
      refine ⟨c4CreateState s fd dev (InMemoryStorage.new_dataset_id r1 r2) [] L, ?_, ?_⟩
      · unfold InMemoryStorage.new_flight_data
        simp only [h1, inv.hdd, List.getLast?_nil, inv.hlim,
          InMemoryStorage.new_dataset, InMemoryStorage.get_dataset,
          InMemoryStorage.increment_dataset_count, alookup_ainsert_self, hL0,
          Nat.zero_mod, c4CreateState, if_true, if_false, ite_true, ite_false]
      · refine ⟨inv.hlim, ?_, hkeys, ?_, ?_⟩
        · simp only [Nat.zero_mod, ite_true, c4CreateState]
          exact alookup_ainsert_self dev _ _
        · right
          simp only [Nat.zero_mod, ite_true]
          refine ⟨by simp, by simp, by simpa using hL⟩
        · intro lastId hlastId
          simp only [Nat.zero_mod, ite_true, List.nil_append, List.getLast?_singleton] at hlastId
          injection hlastId with hEq
          subst hEq
          simp only [c4CreateState]
          rw [alookup_ainsert_self]
          simp
    · -- the previous dataset is exactly full: a new dataset is created
      obtain ⟨lastId, hlastEq⟩ := Option.isSome_iff_exists.mp (List.getLast?_isSome.mpr hne)
      have hlen : 1 ≤ dsIds.length := List.length_pos.mpr hne
      have hB : L * dsIds.length = L * (dsIds.length - 1) + L := by
        have h3 : dsIds.length - 1 + 1 = dsIds.length := by omega
        conv_lhs => rw [← h3]
        rw [Nat.mul_succ]
      have hdm : j % L + L * (j / L) = j := Nat.mod_add_div j L
      have hC : L * (j / L) = j := by omega
      have e1 : L * (dsIds.length - 1) < L * (j / L) := by omega
      have e2 : L * (j / L) ≤ L * dsIds.length := by omega
      have f1 : dsIds.length - 1 < j / L := Nat.lt_of_mul_lt_mul_left e1
      have f2 : j / L ≤ dsIds.length := Nat.le_of_mul_le_mul_left e2 (by omega)
      have hqm : j / L = dsIds.length := by omega
      have hm : j = L * dsIds.length := by
        have : L * (j / L) = L * dsIds.length := by rw [hqm]
        omega
      have hcnt : j - L * (dsIds.length - 1) = L := by omega
      refine ⟨c4CreateState s fd dev (InMemoryStorage.new_dataset_id r1 r2) dsIds L, ?_, ?_⟩
      · unfold InMemoryStorage.new_flight_data
        simp only [h1, inv.hdd, hlastEq, InMemoryStorage.get_dataset,
          inv.hlast lastId hlastEq, hcnt, Nat.lt_irrefl, inv.hlim,
          InMemoryStorage.new_dataset, InMemoryStorage.increment_dataset_count,
          alookup_ainsert_self, hL0, hj, c4CreateState, if_true, if_false, ite_true, ite_false]
      · refine ⟨inv.hlim, ?_, hkeys, ?_, ?_⟩
        · simp only [hj, ite_true, c4CreateState]
          exact alookup_ainsert_self dev _ _
        · right
          simp only [hj, ite_true]
          refine ⟨by simp, ?_, ?_⟩
          · simp only [List.length_append, List.length_cons, List.length_nil,
              Nat.add_sub_cancel]
            omega
          · have hB2 : L * (dsIds.length + 1) = L * dsIds.length + L := Nat.mul_succ L _
            simp only [List.length_append, List.length_cons, List.length_nil, Nat.zero_add]
            omega
        · intro lastId2 hlastId2
          simp only [hj, ite_true, List.getLast?_concat] at hlastId2
          injection hlastId2 with hEq
          subst hEq
          simp only [hj, ite_true, c4CreateState, List.length_append, List.length_cons,
            List.length_nil, Nat.add_sub_cancel]
          rw [show j + 1 - L * dsIds.length = 1 from by omega]
          exact alookup_ainsert_self _ _ _
  · -- the open dataset absorbs the record: plain increment
    have hne : dsIds ≠ [] := by
      rcases inv.hshape with ⟨_, hj0⟩ | ⟨hne, _, _⟩
      · subst hj0; exact absurd (Nat.zero_mod L) hj
      · exact hne
    rcases inv.hshape with ⟨hnil, _⟩ | ⟨_, hlo, hhi⟩
    · exact absurd hnil hne
    obtain ⟨lastId, hlastEq⟩ := Option.isSome_iff_exists.mp (List.getLast?_isSome.mpr hne)
    have hlen : 1 ≤ dsIds.length := List.length_pos.mpr hne
    have hdm : j % L + L * (j / L) = j := Nat.mod_add_div j L
    have hmlt : j % L < L := Nat.mod_lt j (by omega)
    have hB : L * dsIds.length = L * (dsIds.length - 1) + L := by
      have h3 : dsIds.length - 1 + 1 = dsIds.length := by omega
      conv_lhs => rw [← h3]
      rw [Nat.mul_succ]
    have hjB : j < L * dsIds.length := by
      rcases Nat.lt_or_ge j (L * dsIds.length) with h | h
      · exact h
      · exfalso
        have hje : j = L * dsIds.length := by omega
        rw [hje] at hj
        exact hj (Nat.mul_mod_right L dsIds.length)
    have hCp : L * (j / L + 1) = L * (j / L) + L := Nat.mul_succ L _
    have e1 : L * (dsIds.length - 1) < L * (j / L + 1) := by omega
    have f1 : dsIds.length - 1 < j / L + 1 := Nat.lt_of_mul_lt_mul_left e1
    have e2 : L * (j / L) < L * dsIds.length := by omega
    have f2 : j / L < dsIds.length := Nat.lt_of_mul_lt_mul_left e2
    have hqm : j / L = dsIds.length - 1 := by omega
    have hA : L * (dsIds.length - 1) = L * (j / L) := by rw [hqm]
    have hcnt : j - L * (dsIds.length - 1) = j % L := by omega
    have hcntlt : j - L * (dsIds.length - 1) < L := by omega
    refine ⟨c4IncrementState s fd lastId L (j - L * (dsIds.length - 1)), ?_, ?_⟩
    · unfold InMemoryStorage.new_flight_data
      simp only [h1, inv.hdd, hlastEq, InMemoryStorage.get_dataset,
        inv.hlast lastId hlastEq, hcntlt, InMemoryStorage.increment_dataset_count,
        Nat.not_le_of_lt hcntlt, hj, c4IncrementState,
        if_true, if_false, ite_true, ite_false]
      rw [hcnt]
      rfl
    · refine ⟨inv.hlim, ?_, hkeys, ?_, ?_⟩
      · simp only [hj, ite_false]
        exact inv.hdd
      · right
        simp only [hj, ite_false]
        exact ⟨hne, by omega, by omega⟩
      · intro lastId2 hlastId2
        simp only [hj, ite_false] at hlastId2
        rw [hlastEq] at hlastId2
        injection hlastId2 with hEq
        subst hEq
        simp only [hj, ite_false, c4IncrementState]
        rw [show j + 1 - L * (dsIds.length - 1) = (j - L * (dsIds.length - 1)) + 1 from by omega]
        exact alookup_ainsert_self _ _ _

def c4Device : Device := { id := "d", pk := List.replicate 32 0, web3 := none }

def c4SampleFlightData : FlightData :=
  { id := List.replicate 32 1, signature := "", timestamp := 1,
    localization := { longitude := 0, latitude := 0 }, payload := [] }

/-- Claim C4 (counterexample): with limit 2 and the random words both 0,
the first successful `new_flight_data` call on the in-memory backend
returns a dataset with `count = 1` whose id is
`base58(sha256(BE(0,8) || BE(0,8)))` — the value of
`InMemoryStorage::new_dataset_id` — and not the hash-chain id
`base58(sha256(device_id || BE(0,4)))` computed by `Dataset::dataset_id`
that the claim requires. -/
theorem c4_counterexample_dataset_id_is_random_not_hash_chain :
    ((InMemoryStorage.new_flight_data
        (InMemoryStorage.new_device InMemoryStorage.empty c4Device 2).2
        c4SampleFlightData ("d") 0 0).map (fun r => r.1.toOption)) =
      some (some { id := InMemoryStorage.new_dataset_id 0 0, limit := 2, count := 1,
                   web3 := none }) ∧
    InMemoryStorage.new_dataset_id 0 0 ≠ Dataset.dataset_id ("d") 0 := by
  refine ⟨by decide, by decide⟩

/-- A sequence of `new_flight_data` calls for one device, each with its two
random words; `none` when any call fails or panics, otherwise the list of
returned datasets in call order and the final store. -/
def runCalls (dev : String) : InMemoryStorage → List (FlightData × Nat × Nat) →
    Option (List Dataset × InMemoryStorage)
  | s, [] => some ([], s)
  | s, (fd, r1, r2) :: rest =>
    match InMemoryStorage.new_flight_data s fd dev r1 r2 with
    | some (.ok ds, s1) =>
      match runCalls dev s1 rest with
      | some (dss, s2) => some (ds :: dss, s2)
      | none => none
    | _ => none

/-- The datasets the in-memory backend hands back call by call: a fresh
random id (from the call's random words) and count 1 at each dataset
boundary, the running id with the incremented count otherwise. -/
def expectedDatasets (L : Nat) : Nat → String → List (FlightData × Nat × Nat) → List Dataset
  | _, _, [] => []
  | j, lastId, (_, r1, r2) :: rest =>
    if j % L = 0 then
      { id := InMemoryStorage.new_dataset_id r1 r2, limit := L, count := 1, web3 := none } ::
        expectedDatasets L (j + 1) (InMemoryStorage.new_dataset_id r1 r2) rest
    else
      { id := lastId, limit := L, count := j % L + 1, web3 := none } ::
        expectedDatasets L (j + 1) lastId rest

theorem c4_run (L : Nat) (dev : String) (hL : 1 ≤ L) :
    ∀ (pairs : List (FlightData × Nat × Nat)) (doneIds : List (List Nat))
      (dsIds : List String) (j : Nat) (s : InMemoryStorage),
      C4Inv L dev doneIds dsIds j s →
      (∀ p ∈ pairs, p.1.id ∉ doneIds) →
      (pairs.map (fun p => p.1.id)).Pairwise (fun a b => a ≠ b) →
      ∃ s1, runCalls dev s pairs =
        some (expectedDatasets L j (dsIds.getLast?.getD ("")) pairs, s1) := by
  intro pairs
  induction pairs with
  | nil =>
    intro doneIds dsIds j s _ _ _
    exact ⟨s, rfl⟩
  | cons p rest ih =>
    intro doneIds dsIds j s inv hdone hpw
    obtain ⟨fd, r1, r2⟩ := p
    obtain ⟨s1, hcall, inv1⟩ := c4_step L dev doneIds dsIds j s inv fd r1 r2 hL
      (hdone (fd, r1, r2) (List.mem_cons_self _ _))
    have hdone1 : ∀ q ∈ rest, q.1.id ∉ doneIds ++ [fd.id] := by
      intro q hq
      rw [List.mem_append]
      rintro (hin | hin)
      · exact hdone q (List.mem_cons_of_mem _ hq) hin
      · rw [List.mem_singleton] at hin
        exact (List.pairwise_cons.mp hpw).1 q.1.id (List.mem_map_of_mem _ hq) hin.symm
    obtain ⟨s2, hrest⟩ := ih (doneIds ++ [fd.id]) _ (j + 1) s1 inv1 hdone1
      (List.pairwise_cons.mp hpw).2
    refine ⟨s2, ?_⟩
    by_cases hj : j % L = 0 <;>
      simp [runCalls, hcall, hrest, expectedDatasets, hj, List.getLast?_concat]

theorem expectedDatasets_count (L : Nat) (_hL : 1 ≤ L) :
    ∀ (pairs : List (FlightData × Nat × Nat)) (j : Nat) (lastId : String) (k : Nat)
      (d : Dataset),
      (expectedDatasets L j lastId pairs).get? k = some d →
      d.count = (j + k) % L + 1 ∧ d.limit = L := by
  intro pairs
  induction pairs with
  | nil =>
    intro j lastId k d h
    simp [expectedDatasets] at h
  | cons p rest ih =>
    intro j lastId k d h
    obtain ⟨fd, r1, r2⟩ := p
    cases k with
    | zero =>
      by_cases hj : j % L = 0 <;>
        simp only [expectedDatasets, hj, ite_true, ite_false, List.get?_cons_zero] at h <;>
        injection h with h1 <;> subst h1 <;> simp [hj]
    | succ k2 =>
      have harith : j + 1 + k2 = j + (k2 + 1) := by omega
      by_cases hj : j % L = 0
      · simp only [expectedDatasets, hj, ite_true, List.get?_cons_succ] at h
        have h2 := ih (j + 1) (InMemoryStorage.new_dataset_id r1 r2) k2 d h
        rw [harith] at h2
        exact h2
      · simp only [expectedDatasets, hj, ite_false, List.get?_cons_succ] at h
        have h2 := ih (j + 1) lastId k2 d h
        rw [harith] at h2
        exact h2

/-- Claim C4 (amended): for a device with limit `L ≥ 1` registered on a
fresh in-memory store, running `k` successful `new_flight_data` calls with
pairwise-distinct record ids returns, at the `i`-th call (0-based),
a dataset with `count = (i mod L) + 1` and `limit = L`, whose id is the
random `new_dataset_id` drawn at its dataset's creation call — the
sequence described exactly by `expectedDatasets` — not the
`Dataset::dataset_id` hash chain. -/
theorem c4_amended_count_formula_and_random_ids :
    ∀ (device : Device) (L : Nat) (pairs : List (FlightData × Nat × Nat)),
      1 ≤ L →
      (pairs.map (fun p => p.1.id)).Pairwise (fun a b => a ≠ b) →
      ∃ s1 : InMemoryStorage,
        runCalls device.id ((InMemoryStorage.new_device InMemoryStorage.empty device L).2)
            pairs = some (expectedDatasets L 0 ("") pairs, s1) ∧
        ∀ (k : Nat) (hk : k < (expectedDatasets L 0 ("") pairs).length),
          ((expectedDatasets L 0 ("") pairs).get ⟨k, hk⟩).count = k % L + 1 ∧
          ((expectedDatasets L 0 ("") pairs).get ⟨k, hk⟩).limit = L := by
  intro device L pairs hL hpw
  have inv0 : C4Inv L device.id [] [] 0
      ((InMemoryStorage.new_device InMemoryStorage.empty device L).2) := by
    refine ⟨?_, ?_, ?_, Or.inl ⟨rfl, rfl⟩, ?_⟩
    · simp [InMemoryStorage.new_device, InMemoryStorage.empty, alookup, ainsert]
    · simp [InMemoryStorage.new_device, InMemoryStorage.empty, alookup, ainsert]
    · simp [InMemoryStorage.new_device, InMemoryStorage.empty, alookup, ainsert]
    · intro lastId hlastId
      simp at hlastId
  obtain ⟨s1, hrun⟩ := c4_run L device.id hL pairs [] [] 0 _ inv0
    (by intro q _; exact List.not_mem_nil _) hpw
  refine ⟨s1, by simpa using hrun, ?_⟩
  intro k hk
  have h2 := expectedDatasets_count L hL pairs 0 ("") k _ (List.get?_eq_get hk)
  simpa using h2

def c4Pairs : List (FlightData × Nat × Nat) :=
  [({ id := List.replicate 32 1, signature := "", timestamp := 1,
      localization := { longitude := 0, latitude := 0 }, payload := [] }, 0, 0),
   ({ id := List.replicate 32 2, signature := "", timestamp := 2,
      localization := { longitude := 0, latitude := 0 }, payload := [] }, 1, 1),
   ({ id := List.replicate 32 3, signature := "", timestamp := 3,
      localization := { longitude := 0, latitude := 0 }, payload := [] }, 2, 2)]

theorem c4_amended_count_formula_and_random_ids_witness :
    1 ≤ 2 ∧
    ((c4Pairs.map (fun p => p.1.id)).Pairwise (fun a b => a ≠ b)) ∧
    (∃ s1 : InMemoryStorage,
      runCalls c4Device.id
          ((InMemoryStorage.new_device InMemoryStorage.empty c4Device 2).2) c4Pairs =
        some (expectedDatasets 2 0 ("") c4Pairs, s1) ∧
      ∀ (k : Nat) (hk : k < (expectedDatasets 2 0 ("") c4Pairs).length),
        ((expectedDatasets 2 0 ("") c4Pairs).get ⟨k, hk⟩).count = k % 2 + 1 ∧
        ((expectedDatasets 2 0 ("") c4Pairs).get ⟨k, hk⟩).limit = 2) :=
  ⟨by decide, by decide,
    c4_amended_count_formula_and_random_ids c4Device 2 c4Pairs (by decide) (by decide)⟩

/-! ## Claim C10 -/

theorem treeOfList_foldl (h : List Nat → List Nat) (elements : List (List Nat)) :
    ∀ t : MerkleTreeAppendOnly,
      elements.foldl (MerkleTreeAppendOnly.append h) t =
        ⟨t.nodes, t.leaves ++ elements.map h⟩ := by
  induction elements with
  | nil => intro t; simp
  | cons e es ih =>
    intro t
    show es.foldl _ (MerkleTreeAppendOnly.append h t e) = _
    rw [ih]
    simp [MerkleTreeAppendOnly.append]

theorem treeOfList_eq (h : List Nat → List Nat) (elements : List (List Nat)) :
    treeOfList h elements = ⟨[], elements.map h⟩ := by
  unfold treeOfList MerkleTreeAppendOnly.new
  rw [treeOfList_foldl]
  rfl

theorem computeLoop_prefix (h : List Nat → List Nat) :
    ∀ (fuel : Nat) (nodes : List (List Nat)) (start : Nat) (oddIdx : Option Nat),
      ∃ rest, MerkleTreeAppendOnly.computeLoop h fuel nodes start oddIdx = nodes ++ rest := by
  intro fuel
  induction fuel with
  | zero => intro nodes start oddIdx; exact ⟨[], by simp [MerkleTreeAppendOnly.computeLoop]⟩
  | succ f ih =>
    intro nodes start oddIdx
    simp only [MerkleTreeAppendOnly.computeLoop]
    split
    · split
      · exact ⟨_, by rw [List.append_assoc]⟩
      · exact ⟨_, rfl⟩
    · obtain ⟨rest, hr⟩ := ih (nodes ++ (List.range ((nodes.length - start) / 2)).map
        (fun i => MerkleTreeAppendOnly.pairwise_hash h (nodes.getD (start + 2 * i) [])
          (nodes.getD (start + 2 * i + 1) []))) nodes.length
        (if (oddIdx.isNone && nodes.length % 2 == 1) = true then some (nodes.length - 1) else oddIdx)
      exact ⟨_, by rw [hr, List.append_assoc]⟩

theorem compute_nodes_prefix_fresh (h : List Nat → List Nat) (ls : List (List Nat)) :
    ∃ rest, (MerkleTreeAppendOnly.compute h ⟨[], ls⟩).nodes = ls ++ rest := by
  unfold MerkleTreeAppendOnly.compute
  simp only [List.length_nil, List.take_nil, List.nil_append]
  split
  · exact ⟨[], by simp⟩
  · exact computeLoop_prefix h _ ls 0 none

theorem position_isSome_of_mem {p : List Nat → Bool} {l : List (List Nat)} {x : List Nat}
    (hx : x ∈ l) (hp : p x = true) :
    (MerkleTreeAppendOnly.position p l).isSome = true := by
  induction l with
  | nil => cases hx
  | cons a as ih =>
    by_cases h1 : p a = true
    · simp [MerkleTreeAppendOnly.position, h1]
    · rcases List.mem_cons.mp hx with he | hm
      · subst he; exact absurd hp h1
      · simp [MerkleTreeAppendOnly.position, h1, ih hm]

/-- Claim C10 (confirmed): under the precondition that the record's
canonical bytes occur among the canonical bytes of the dataset's records,
`flight_data_web3_info` does not fail — the internal `proof` lookup
succeeds — and returns `Ok` of a `Web3Info` that inherits `blockchain` and
`tx` from the dataset receipt and carries the `Proof` receipt computed on
the tree rebuilt from the records' canonical byte forms. -/
theorem c10_flight_data_web3_info_total_and_pure :
    ∀ (fd : FlightData) (fds : List FlightData) (receipt : Web3Info),
      fd.to_bytes ∈ fds.map FlightData.to_bytes →
      ∃ pf, (MerkleTreeAppendOnly.proof keccak256
          (treeOfList keccak256 (fds.map FlightData.to_bytes)) fd.to_bytes).1 = some pf ∧
        flight_data_web3_info fd fds receipt =
          some (.ok { blockchain := receipt.blockchain, tx := receipt.tx,
                      merkle_receipt := some (.Proof pf) }) := by
  intro fd fds receipt hmem
  have htree : treeOfList keccak256 (fds.map FlightData.to_bytes) =
      ⟨[], (fds.map FlightData.to_bytes).map keccak256⟩ := treeOfList_eq _ _
  have hfds : fds ≠ [] := by
    intro h0
    rw [h0] at hmem
    cases hmem
  have hsne : (fds.map FlightData.to_bytes).map keccak256 ≠ [] := by
    simp [hfds]
  have hempty_false :
      MerkleTreeAppendOnly.is_empty ⟨[], (fds.map FlightData.to_bytes).map keccak256⟩ = false := by
    simp [MerkleTreeAppendOnly.is_empty, hfds]
  have hvalid_false :
      MerkleTreeAppendOnly.is_root_valid ⟨[], (fds.map FlightData.to_bytes).map keccak256⟩ = false := by
    simp [MerkleTreeAppendOnly.is_root_valid, hfds]
  obtain ⟨rest, hrest⟩ :=
    compute_nodes_prefix_fresh keccak256 ((fds.map FlightData.to_bytes).map keccak256)
  have hmem2 : keccak256 fd.to_bytes ∈
      (MerkleTreeAppendOnly.compute keccak256
        ⟨[], (fds.map FlightData.to_bytes).map keccak256⟩).nodes := by
    rw [hrest]
    exact List.mem_append_left _ (List.mem_map_of_mem keccak256 hmem)
  have hpos : (MerkleTreeAppendOnly.position (fun x => x == keccak256 fd.to_bytes)
      (MerkleTreeAppendOnly.compute keccak256
        ⟨[], (fds.map FlightData.to_bytes).map keccak256⟩).nodes).isSome = true :=
    position_isSome_of_mem hmem2 (by simp)
  obtain ⟨cursor, hcur⟩ := Option.isSome_iff_exists.mp hpos
  have hP : (MerkleTreeAppendOnly.proof keccak256
      (treeOfList keccak256 (fds.map FlightData.to_bytes)) fd.to_bytes).1 =
      some (MerkleTreeAppendOnly.proofGo
        (MerkleTreeAppendOnly.compute keccak256
          ⟨[], (fds.map FlightData.to_bytes).map keccak256⟩).nodes
        (let nLeaves := ((MerkleTreeAppendOnly.compute keccak256
            ⟨[], (fds.map FlightData.to_bytes).map keccak256⟩).nodes.length + 1) / 2
         if MerkleTreeAppendOnly.isPow2 nLeaves then ilog2 nLeaves else ilog2 nLeaves + 1)
        0 (((MerkleTreeAppendOnly.compute keccak256
            ⟨[], (fds.map FlightData.to_bytes).map keccak256⟩).nodes.length + 1) / 2)
        cursor 0 0 []) := by
    rw [htree]
    unfold MerkleTreeAppendOnly.proof
    simp only [hempty_false, hvalid_false, Bool.false_eq_true, if_false, ite_not, if_true,
      Bool.not_false, hcur]
  refine ⟨_, hP, ?_⟩
  unfold flight_data_web3_info
  dsimp only
  rw [hP]

/-- Witness for C10 at a one-record dataset. -/
def c10SampleFlightData : FlightData :=
  { id := List.replicate 32 5, signature := "", timestamp := 1,
    localization := { longitude := 0, latitude := 0 }, payload := [] }

def c10SampleReceipt : Web3Info :=
  { blockchain := Blockchain.ethereum,
    tx := { hash := List.replicate 32 2, status := .Confirmed },
    merkle_receipt := some (.Root (List.replicate 32 4)) }

theorem c10_flight_data_web3_info_total_and_pure_witness :
    (flight_data_web3_info c10SampleFlightData [c10SampleFlightData]
      c10SampleReceipt).isSome = true := by
  obtain ⟨pf, _, hr⟩ := c10_flight_data_web3_info_total_and_pure c10SampleFlightData
    [c10SampleFlightData] c10SampleReceipt (by simp)
  rw [hr]
  rfl

end Bitacora
